import Mathlib

/-!
Verification development for the Xenia Direct3D 12 pipeline cache
(`src/xenia/gpu/d3d12/pipeline_cache.cc`).

The C++ code is shallowly embedded: byte streams are lists of naturals,
the XXH64 content hash is an explicit function parameter `H` (the hash
implementation is third-party code and none of the verified properties
depend on the digest algorithm), and the stateful cache is explicit state
passing over `PipelineCacheState`.  Quiescence waits on the
creation-completion event are modelled by their established
postcondition: the event is set only once no creation worker is busy and
the creation queue is empty.
-/

set_option autoImplicit false

namespace XeniaPipelineCache

/-- Little-endian reading of a byte list into a natural number, the way
`fread` fills an unsigned little-endian integer field. -/
def decodeLE : List Nat → Nat
  | [] => 0
  | b :: bs => b % 256 + 256 * decodeLE bs

/-- Little-endian encoding of `v` into exactly `n` bytes. -/
def encodeLE : Nat → Nat → List Nat
  | 0, _ => []
  | n + 1, v => v % 256 :: encodeLE n (v / 256)

/-- Size in bytes of the on-disk shader file header, `uint32 magic` plus
`uint32 version_swapped` (`InitializeShaderStorage`, lines 233-236). -/
def shaderFileHeaderSize : Nat := 8

/-- Size in bytes of `ShaderStoredHeader`: the 64-bit ucode content hash,
the 32-bit ucode dword count, and the shader type / patch primitive type /
`SQ_PROGRAM_CNTL` block.  The last three fields never influence a loading
decision (the load loop reads only the hash and the dword count), so the
model keeps them as one opaque 12-byte block; the struct declaration
itself lives in `pipeline_cache.h`, which is not among the sources. -/
def shaderHeaderSize : Nat := 24

/-- Payload of one stored shader record: the opaque header tail (shader
type, patch primitive type, program control bits) and the raw ucode
bytes, `ucode_dword_count * 4` of them. -/
structure ShaderRecord where
  meta : List Nat
  ucode : List Nat
deriving DecidableEq

/-- On-disk encoding of one shader record: the stored 64-bit hash, the
32-bit dword count, the opaque 12-byte tail, then the raw ucode bytes.
The stored hash is an explicit argument so that corrupted records (stored
hash differing from the recomputed one) can be expressed. -/
def encodeShaderRecord (storedHash : Nat) (r : ShaderRecord) : List Nat :=
  encodeLE 8 storedHash ++ encodeLE 4 (r.ucode.length / 4) ++ r.meta ++ r.ucode

/-- Concatenated encoding of a list of shader records. -/
def encodeShaderRecords : List (Nat × ShaderRecord) → List Nat
  | [] => []
  | (h, r) :: tl => encodeShaderRecord h r ++ encodeShaderRecords tl

/-- A record that is well formed for the loader and hash-valid: the opaque
tail has its on-disk size, the ucode length is a whole number of dwords,
the stored hash and count fit their fields, and the stored hash equals the
hash recomputed over the ucode bytes. -/
def GoodShaderRecord (H : List Nat → Nat) (storedHash : Nat) (r : ShaderRecord) : Prop :=
  r.meta.length = 12 ∧ 4 ∣ r.ucode.length ∧ storedHash < 2 ^ 64 ∧
    r.ucode.length / 4 < 2 ^ 32 ∧ H r.ucode = storedHash

/-- The shader-storage load loop of `InitializeShaderStorage`
(lines 298-358), as a function of the remaining body bytes.  Per
iteration: read a `ShaderStoredHeader` (stop at end of file); if the
stored hash is already in the shader map, seek past the ucode without any
validation — `xe::filesystem::Seek` is a thin `fseek` wrapper and
`fseek(SEEK_CUR)` past end-of-file succeeds, so even when fewer bytes
remain than the recorded ucode size the record is counted into
`shader_storage_valid_bytes`, and the loop then stops because the next
header read, positioned beyond end-of-file, fails; otherwise read the
ucode (stop if it cannot be fully read), recompute its hash, stop if it
disagrees with the stored one, and otherwise create the shader and add it
to the map.  `shader_storage_valid_bytes` advances once the record is
accepted.  The fuel argument only bounds the number of iterations; the
top-level wrapper supplies more than enough. -/
def loadShaderGo (H : List Nat → Nat) :
    Nat → List Nat → List Nat → List (Nat × ShaderRecord) → Nat →
      List (Nat × ShaderRecord) × List Nat × Nat
  | 0, known, _, acc, valid => (acc, known, valid)
  | fuel + 1, known, bs, acc, valid =>
    if bs.length < shaderHeaderSize then (acc, known, valid)
    else
      let h := decodeLE (bs.take 8)
      let c := decodeLE ((bs.drop 8).take 4)
      let meta := (bs.drop 12).take 12
      let rest := bs.drop shaderHeaderSize
      let ucodeBytes := c * 4
      if h ∈ known then
        if rest.length < ucodeBytes then
          (acc, known, valid + (shaderHeaderSize + ucodeBytes))
        else
          loadShaderGo H fuel known (rest.drop ucodeBytes) acc
            (valid + (shaderHeaderSize + ucodeBytes))
      else
        if rest.length < ucodeBytes then (acc, known, valid)
        else
          let ucode := rest.take ucodeBytes
          if H ucode ≠ h then (acc, known, valid)
          else
            loadShaderGo H fuel (h :: known) (rest.drop ucodeBytes)
              (acc ++ [(h, ⟨meta, ucode⟩)]) (valid + (shaderHeaderSize + ucodeBytes))

/-- Streaming load of the shader-storage body (the bytes after the 8-byte
file header), given the set of ucode hashes already present in the shader
map.  Returns the newly loaded records, the final hash set, and
`shader_storage_valid_bytes` — the offset the file is truncated to. -/
def loadShaderStorage (H : List Nat → Nat) (known : List Nat) (body : List Nat) :
    List (Nat × ShaderRecord) × List Nat × Nat :=
  loadShaderGo H (body.length + 1) known body [] shaderFileHeaderSize

/-- Trailing bytes on which the shader load loop stops without counting
anything further into the valid byte offset: too short for a stored
header, or a header whose stored hash is unknown and whose ucode is
missing or fails the recomputed-hash check.  Trailing bytes whose leading
8 bytes decode to an already-known hash are deliberately not covered:
the loop accepts such a record without validation — and, when its payload
is truncated, the succeeding past-end-of-file seek still counts the
missing bytes (see `loadShaderStorage_counts_past_eof_seek`). -/
def ShaderJunkRejected (H : List Nat → Nat) (known : List Nat) (junk : List Nat) : Prop :=
  junk.length < shaderHeaderSize ∨
    (decodeLE (junk.take 8) ∉ known ∧
      ((junk.drop shaderHeaderSize).length < decodeLE ((junk.drop 8).take 4) * 4 ∨
        H ((junk.drop shaderHeaderSize).take (decodeLE ((junk.drop 8).take 4) * 4)) ≠
          decodeLE (junk.take 8)))

/-- Size in bytes of the on-disk pipeline state file header: `uint32
magic`, `uint32 magic_api` and `uint32 version_swapped`
(`InitializeShaderStorage`, lines 411-415). -/
def pipelineFileHeaderSize : Nat := 12

/-- On-disk encoding of a list of `PipelineStoredDescription` records:
each is the stored 64-bit description hash followed by the raw
`PipelineDescription` bytes. -/
def encodePipelineRecords : List (Nat × List Nat) → List Nat
  | [] => []
  | (h, d) :: tl => encodeLE 8 h ++ d ++ encodePipelineRecords tl

/-- The pipeline-storage validation loop of `InitializeShaderStorage`
(lines 429-482): the file tells how many complete fixed-size records it
holds, all of them are read, and then they are accepted in order until
the first whose hash recomputed over the description bytes disagrees with
the stored hash.  Returns the accepted records and the byte count they
span. -/
def loadPipelineGo (H : List Nat → Nat) (descSize : Nat) :
    Nat → List Nat → List (Nat × List Nat) × Nat
  | 0, _ => ([], 0)
  | count + 1, bs =>
    let h := decodeLE (bs.take 8)
    let d := (bs.drop 8).take descSize
    if H d ≠ h then ([], 0)
    else
      let r := loadPipelineGo H descSize count (bs.drop (8 + descSize))
      ((h, d) :: r.1, r.2 + (8 + descSize))

/-- Load of the pipeline-storage body (the bytes after the 12-byte file
header).  Returns the accepted records and
`pipeline_state_storage_valid_bytes` — the offset the file is truncated
to. -/
def loadPipelineStorage (H : List Nat → Nat) (descSize : Nat) (body : List Nat) :
    List (Nat × List Nat) × Nat :=
  let r := loadPipelineGo H descSize (body.length / (8 + descSize)) body
  (r.1, pipelineFileHeaderSize + r.2)

/-- Trailing bytes on which the pipeline load loop accepts no further
record: too short to be counted as a record by the size computation, or a
leading record whose recomputed description hash disagrees with its
stored hash. -/
def PipelineJunkRejected (H : List Nat → Nat) (descSize : Nat) (junk : List Nat) : Prop :=
  junk.length < 8 + descSize ∨ H ((junk.drop 8).take descSize) ≠ decodeLE (junk.take 8)

/-- Modelled from the spec: the translation state of a shader object —
`Untranslated`, `Translated` (valid) or `Failed` — is monotonic and a
`Failed` outcome is terminal.  The `Shader` class declaration holding
this state lives outside the sources (`xenia/gpu/shader.h`); the spec
describes `is_translated` as "a translation attempt has finished" and
`is_valid` as "the attempt succeeded". -/
inductive ShaderTranslationState where
  | untranslated
  | translated
  | failed
deriving DecidableEq

/-- A `D3D12Shader` object of the content store: its ucode content hash,
its raw ucode bytes and its translation state. -/
structure D3D12Shader where
  ucode_data_hash : Nat
  ucode : List Nat
  state : ShaderTranslationState
deriving DecidableEq

/-- Whether a translation attempt has finished for this shader
(successfully or not); `EnsureShadersTranslated` consults only this. -/
def is_translated (s : D3D12Shader) : Bool :=
  s.state ≠ ShaderTranslationState.untranslated

/-- Whether the shader translated successfully and can be used; the
pipeline-storage replay consults this. -/
def is_valid (s : D3D12Shader) : Bool :=
  s.state = ShaderTranslationState.translated

/-- Lookup in the shader map (`shader_map_`), keyed by ucode hash. -/
def findShader? (m : List (Nat × D3D12Shader)) (h : Nat) : Option D3D12Shader :=
  (m.find? (fun p => p.1 == h)).map (fun p => p.2)

/-- Translation state recorded for hash `h`; a hash that is not in the map
has never had a translation attempt. -/
def shaderState (m : List (Nat × D3D12Shader)) (h : Nat) : ShaderTranslationState :=
  match findShader? m h with
  | some sh => sh.state
  | none => ShaderTranslationState.untranslated

/-- Overwrite the translation state of the shader stored for hash `h`. -/
def setShaderState (m : List (Nat × D3D12Shader)) (h : Nat)
    (st : ShaderTranslationState) : List (Nat × D3D12Shader) :=
  m.map (fun p => if p.1 == h then (p.1, { p.2 with state := st }) else p)

/-- Per-render-target block of `PipelineDescription`: format, write mask
and blend state, all zero when the target is not used. -/
structure PipelineRenderTarget where
  used : Nat
  format : Nat
  write_mask : Nat
  src_blend : Nat
  dest_blend : Nat
  blend_op : Nat
  src_blend_alpha : Nat
  dest_blend_alpha : Nat
  blend_op_alpha : Nat
deriving DecidableEq

/-- The all-zero render-target block left by the initial `memset`. -/
def zeroRenderTarget : PipelineRenderTarget :=
  ⟨0, 0, 0, 0, 0, 0, 0, 0, 0⟩

/-- The canonical fixed-size pipeline description.  The two shader hashes
and the render-target blocks are modelled by field; every remaining
register-derived field (strip cut index, topology, tessellation, patch
type, rasterizer, depth/stencil state, ...) is kept as one opaque block
`regFields`, because none of the verified properties depends on the exact
business-rule mapping from register bits into those fields (the struct
declaration lives in `pipeline_cache.h`, outside the sources). -/
structure PipelineDescription where
  vertex_shader_hash : Nat
  pixel_shader_hash : Nat
  regFields : List Nat
  render_targets : List PipelineRenderTarget
deriving DecidableEq, Inhabited

/-- The all-zero description produced by the initial `memset` in
`GetCurrentStateDescription` (line 945). -/
def zeroPipelineDescription : PipelineDescription :=
  ⟨0, 0, [], []⟩

/-- A `PipelineRuntimeDescription`: the resolved root signature, the two
shader references and the canonical description. -/
structure PipelineRuntimeDescription where
  root_signature : Nat
  vertex_shader : Nat
  pixel_shader : Option Nat
  description : PipelineDescription
deriving DecidableEq, Inhabited

/-- A `PipelineState` entry of the pipeline table.  In C++ the entry is a
heap object and identity is its address; here `id` plays that role (each
insertion uses a fresh id).  The asynchronously written compiled-object
handle is not part of the identity and is not modelled. -/
structure PipelineState where
  id : Nat
  runtime : PipelineRuntimeDescription
deriving DecidableEq

/-- The mutable state of one `PipelineCache` instance. -/
structure PipelineCacheState where
  shader_map : List (Nat × D3D12Shader)
  pipeline_states : List (Nat × PipelineState)
  current_pipeline_state : Option PipelineState
  next_id : Nat
  creation_queue : List Nat
  creation_threads_busy : Nat
  creation_threads : Nat
  storage_write_thread : Bool
  shader_storage_file : Option (List Nat)
  pipeline_storage_file : Option (List Nat)
deriving DecidableEq

/-- Observable side effects of a configuration request, used to state
that a path translates nothing, enqueues nothing and persists nothing. -/
inductive CacheEvent where
  | translated (hash : Nat)
  | persistedShader (hash : Nat)
  | enqueued (id : Nat)
  | builtOnCaller (id : Nat)
  | persistedPipeline (hash : Nat)
deriving DecidableEq

/-- Inputs of `GetCurrentStateDescription`: the two shader references (by
ucode hash), the values the register-derived fields would receive, the
per-render-target data (`none` models `DXGI_FORMAT_UNKNOWN`, `some`
carries the values that slot would be filled with), and the
`edram_rov_used_` flag under which the render-target loop is skipped. -/
structure ConfigureArgs where
  vertexHash : Nat
  pixelHash : Option Nat
  regFields : List Nat
  rts : List (Option PipelineRenderTarget)
  edramRov : Bool
deriving DecidableEq

/-- The render-target loop of `GetCurrentStateDescription` (lines
1271-1302): slots are filled in order and the loop breaks at the first
target whose format is `DXGI_FORMAT_UNKNOWN`, leaving that slot and every
later one in the zeroed state. -/
def fillRenderTargets : List (Option PipelineRenderTarget) → List PipelineRenderTarget
  | [] => []
  | none :: tl => List.replicate (tl.length + 1) zeroRenderTarget
  | some rt :: tl => rt :: fillRenderTargets tl

/-- `GetCurrentStateDescription` (lines 933-1306): zero-initialize the
whole record, resolve the root signature through the external provider
`R` and fail the call if that fails, then fill the fields.  The pixel
shader hash is written only when a pixel shader is present, so the zeroed
value stands for absence. -/
def GetCurrentStateDescription (R : ConfigureArgs → Option Nat) (args : ConfigureArgs) :
    Option PipelineRuntimeDescription :=
  match R args with
  | none => none
  | some rootSig =>
    some
      { root_signature := rootSig
        vertex_shader := args.vertexHash
        pixel_shader := args.pixelHash
        description :=
          { zeroPipelineDescription with
            vertex_shader_hash := args.vertexHash
            pixel_shader_hash :=
              match args.pixelHash with
              | some ph => ph
              | none => zeroPipelineDescription.pixel_shader_hash
            regFields := args.regFields
            render_targets :=
              if args.edramRov then zeroPipelineDescription.render_targets
              else fillRenderTargets args.rts } }

/-- The pixel-shader part of `EnsureShadersTranslated` (lines 766-782):
translate only if no attempt has been made yet; a finished attempt —
including a failed one — is never repeated.  `T` is the external
translator oracle (success by ucode hash, deterministic per the spec). -/
def ensurePixelTranslated (T : Nat → Bool) (storageOpen : Bool)
    (m : List (Nat × D3D12Shader)) (p : Option Nat) (evs : List CacheEvent) :
    Bool × List (Nat × D3D12Shader) × List CacheEvent :=
  match p with
  | none => (true, m, evs)
  | some ph =>
    if shaderState m ph = ShaderTranslationState.untranslated then
      if T ph then
        (true, setShaderState m ph ShaderTranslationState.translated,
          evs ++ [CacheEvent.translated ph] ++
            (if storageOpen then [CacheEvent.persistedShader ph] else []))
      else (false, setShaderState m ph ShaderTranslationState.failed,
        evs ++ [CacheEvent.translated ph])
    else (true, m, evs)

/-- `EnsureShadersTranslated` (lines 723-785): the vertex shader and then
the optional pixel shader are translated if and only if they are still
untranslated; a successful translation is queued for background
persistence when the shader storage file is open; a failed translation
aborts with failure.  A shader whose attempt already finished — in
particular a `failed` one — is skipped without consulting its validity,
and the call then reports success for it. -/
def EnsureShadersTranslated (T : Nat → Bool) (storageOpen : Bool)
    (m : List (Nat × D3D12Shader)) (v : Nat) (p : Option Nat) :
    Bool × List (Nat × D3D12Shader) × List CacheEvent :=
  if shaderState m v = ShaderTranslationState.untranslated then
    if T v then
      ensurePixelTranslated T storageOpen
        (setShaderState m v ShaderTranslationState.translated) p
        ([CacheEvent.translated v] ++
          (if storageOpen then [CacheEvent.persistedShader v] else []))
    else (false, setShaderState m v ShaderTranslationState.failed,
      [CacheEvent.translated v])
  else ensurePixelTranslated T storageOpen m p []

/-- Hash-bucket lookup of the pipeline table (`ConfigurePipeline`, lines
817-828): `equal_range` on the description hash selects the candidates
and each candidate is compared to the description by full `memcmp`. -/
def findPipelineState (Hd : PipelineDescription → Nat)
    (table : List (Nat × PipelineState)) (d : PipelineDescription) :
    Option PipelineState :=
  ((table.filter (fun p => p.1 == Hd d)).find?
    (fun p => p.2.runtime.description == d)).map (fun p => p.2)

/-- `LoadShader` (lines 701-721): hash the ucode bytes, return the
existing shader object if the hash is already mapped, and otherwise
insert a fresh untranslated object — even one that will later fail
translation is tracked so that translation is not retried.  The returned
flag tells whether an insertion happened. -/
def LoadShader (H : List Nat → Nat) (m : List (Nat × D3D12Shader))
    (ucode : List Nat) : D3D12Shader × List (Nat × D3D12Shader) × Bool :=
  let h := H ucode
  match findShader? m h with
  | some sh => (sh, m, false)
  | none =>
    let sh : D3D12Shader := ⟨h, ucode, ShaderTranslationState.untranslated⟩
    (sh, (h, sh) :: m, true)

/-- The part of `ConfigurePipeline` past the fast path (lines 816-873):
hash-table lookup with full comparison, and on a miss translation of the
shaders if needed, insertion of a fresh entry, enqueueing for creation
(or building on the calling thread when there are no creation threads)
and queueing of the description for background persistence when the
pipeline storage file is open. -/
def configurePipelineSlow (Hd : PipelineDescription → Nat) (T : Nat → Bool)
    (s : PipelineCacheState) (args : ConfigureArgs)
    (runtime : PipelineRuntimeDescription) :
    Option PipelineState × PipelineCacheState × List CacheEvent :=
  let d := runtime.description
  match findPipelineState Hd s.pipeline_states d with
  | some e => (some e, { s with current_pipeline_state := some e }, [])
  | none =>
    let er := EnsureShadersTranslated T s.shader_storage_file.isSome
      s.shader_map args.vertexHash args.pixelHash
    if er.1 then
      let e : PipelineState := ⟨s.next_id, runtime⟩
      let enqueue := s.creation_threads ≠ 0
      (some e,
        { s with
          shader_map := er.2.1
          pipeline_states := (Hd d, e) :: s.pipeline_states
          next_id := s.next_id + 1
          current_pipeline_state := some e
          creation_queue :=
            if enqueue then s.creation_queue ++ [e.id] else s.creation_queue },
        er.2.2 ++
          (if enqueue then [CacheEvent.enqueued e.id]
           else [CacheEvent.builtOnCaller e.id]) ++
          (if s.pipeline_storage_file.isSome then [CacheEvent.persistedPipeline (Hd d)]
           else []))
    else (none, { s with shader_map := er.2.1 }, er.2.2)

/-- `ConfigurePipeline` (lines 787-873): build the description — failure
aborts with no mutation — then try the single-slot last-used fast path
(`current_pipeline_state_`, a full byte comparison against the built
description), and otherwise fall through to the table lookup and miss
handling of `configurePipelineSlow`. -/
def ConfigurePipeline (Hd : PipelineDescription → Nat)
    (R : ConfigureArgs → Option Nat) (T : Nat → Bool)
    (s : PipelineCacheState) (args : ConfigureArgs) :
    Option PipelineState × PipelineCacheState × List CacheEvent :=
  match GetCurrentStateDescription R args with
  | none => (none, s, [])
  | some runtime =>
    let d := runtime.description
    match s.current_pipeline_state with
    | some cur =>
      if cur.runtime.description = d then (some cur, s, [])
      else configurePipelineSlow Hd T s args runtime
    | none => configurePipelineSlow Hd T s args runtime

/-- Resolution of one stored pipeline record during replay
(`InitializeShaderStorage`, lines 501-533): the vertex shader must be
present in the shader map and valid; a zero stored pixel shader hash is
taken as "no pixel shader" without any map lookup, while a nonzero one
must resolve to a present, valid shader; then the root signature is
resolved through the external provider `R2`. -/
def resolveStoredPipeline (R2 : PipelineDescription → Option Nat)
    (m : List (Nat × D3D12Shader)) (d : PipelineDescription) :
    Option PipelineRuntimeDescription :=
  match findShader? m d.vertex_shader_hash with
  | none => none
  | some vs =>
    if !is_valid vs then none
    else if d.pixel_shader_hash ≠ 0 then
      match findShader? m d.pixel_shader_hash with
      | none => none
      | some ps =>
        if !is_valid ps then none
        else
          match R2 d with
          | none => none
          | some rootSig =>
            some ⟨rootSig, d.vertex_shader_hash, some d.pixel_shader_hash, d⟩
    else
      match R2 d with
      | none => none
      | some rootSig => some ⟨rootSig, d.vertex_shader_hash, none, d⟩

/-- Replay of one loaded pipeline record (lines 483-557): skip it if an
entry with the same stored hash and byte-equal description already
exists, otherwise resolve it and, on success, insert a fresh entry with
the stored hash as its key, enqueueing it for creation when creation
threads exist. -/
def replayPipelineRecord (R2 : PipelineDescription → Option Nat)
    (decodeDesc : List Nat → PipelineDescription)
    (s : PipelineCacheState) (rec : Nat × List Nat) : PipelineCacheState :=
  let d := decodeDesc rec.2
  if ((s.pipeline_states.filter (fun p => p.1 == rec.1)).find?
      (fun p => p.2.runtime.description == d)).isSome then s
  else
    match resolveStoredPipeline R2 s.shader_map d with
    | none => s
    | some rt =>
      let e : PipelineState := ⟨s.next_id, rt⟩
      { s with
        pipeline_states := (rec.1, e) :: s.pipeline_states
        next_id := s.next_id + 1
        creation_queue :=
          if s.creation_threads ≠ 0 then s.creation_queue ++ [e.id]
          else s.creation_queue }

/-- `InitializeShaderStorage` (lines 199-623), restricted to its effect
on the cache state.  The shader log is streamed and its surviving
records are translated by the bounded replay worker pool; records whose
translation failed are erased from the map after the replay, so the net
effect keeps exactly the records the translator oracle `T` accepts, as
translated shaders.  The pipeline log is then loaded and replayed, each
record resolved against the now-replayed shader map, and finally
`CreateQueuedPipelineStatesOnProcessorThread` drains the creation queue
on the calling thread before the background writer thread is started.
(The additional-creation-thread growth attempted for bulk replay never
changes the thread count; see
`InitializeShaderStorage_creationThreadGrowth`.)  If either file cannot
be opened the cache runs without persistence. -/
def InitializeShaderStorage (H : List Nat → Nat) (T : Nat → Bool)
    (descSize : Nat) (R2 : PipelineDescription → Option Nat)
    (decodeDesc : List Nat → PipelineDescription)
    (s : PipelineCacheState) : PipelineCacheState :=
  match s.shader_storage_file, s.pipeline_storage_file with
  | some shaderBody, some pipelineBody =>
    let lr := loadShaderStorage H (s.shader_map.map (fun p => p.1)) shaderBody
    let survivors := lr.1.filter (fun p => T p.1)
    let s1 :=
      { s with
        shader_map := s.shader_map ++ survivors.map
          (fun p => (p.1, ⟨p.1, p.2.ucode, ShaderTranslationState.translated⟩)) }
    let pr := loadPipelineStorage H descSize pipelineBody
    let s2 := pr.1.foldl (replayPipelineRecord R2 decodeDesc) s1
    let s3 := if pr.1.isEmpty then s2 else { s2 with creation_queue := [] }
    { s3 with storage_write_thread := true }
  | _, _ => { s with storage_write_thread := false }

/-- `ClearCache` (lines 146-197): shut down the storage writer, drop the
fast-path slot, empty the creation queue and wait out the in-flight
builds (the quiescence wait is modelled by its postcondition — the
completion event is set only once no worker is busy), release every
pipeline state object and every shader object clearing both maps, and
finally, when not shutting down and the storage writer was active,
reinitialize the shader storage, which replays both on-disk logs. -/
def ClearCache (H : List Nat → Nat) (T : Nat → Bool) (descSize : Nat)
    (R2 : PipelineDescription → Option Nat)
    (decodeDesc : List Nat → PipelineDescription)
    (s : PipelineCacheState) (shutting_down : Bool) : PipelineCacheState :=
  let reinitialize := !shutting_down && s.storage_write_thread
  let s0 := { s with storage_write_thread := false }
  let s1 := { s0 with current_pipeline_state := none }
  let s2 :=
    if s1.creation_threads ≠ 0 then
      { s1 with creation_queue := [], creation_threads_busy := 0 }
    else s1
  let s3 := { s2 with pipeline_states := [], shader_map := [] }
  if reinitialize then InitializeShaderStorage H T descSize R2 decodeDesc s3
  else s3

/-- The additional-creation-thread loop of the pipeline log replay
(lines 459-468): a thread is added while the current count is below the
loop's bound. -/
def addCreationThreadsWhileBelow (count target : Nat) : Nat :=
  if count < target then addCreationThreadsWhileBelow (count + 1) target else count
termination_by target - count
decreasing_by simp_wf; omega

/-- The thread-growth computation of the pipeline log replay (lines
449-468): `creation_thread_needed_count` is computed from the stored
description count and the logical processor count (lines 454-458), but
the growth loop at line 459 runs while the thread count is below
`creation_thread_original_count` — the bound the source actually passes.
The pair holds the computed needed count and the thread count after the
loop. -/
def InitializeShaderStorage_creationThreadGrowth
    (storedDescriptionCount logicalProcessorCount creation_thread_original_count : Nat) :
    Nat × Nat :=
  let creation_thread_needed_count :=
    max (min storedDescriptionCount logicalProcessorCount - 1)
      creation_thread_original_count
  (creation_thread_needed_count,
    addCreationThreadsWhileBelow creation_thread_original_count
      creation_thread_original_count)

/-- Outcome of one scheduling decision of a creation worker. -/
inductive CreationThreadAction where
  | exit
  | wait
  | dequeue (id : Nat)
deriving DecidableEq

/-- One scheduling decision of `CreationThread` (lines 1746-1770): under
the request lock, a worker whose index is at or above
`creation_threads_shutdown_from_` — or that finds the queue empty —
first allows the completion event to be signalled, then exits if its
index is at or above the threshold, and otherwise waits; a worker below
the threshold with a non-empty queue dequeues the front entry. -/
def CreationThread_step (thread_index creation_threads_shutdown_from : Nat)
    (creation_queue : List Nat) : CreationThreadAction :=
  if thread_index ≥ creation_threads_shutdown_from ∨ creation_queue = [] then
    if thread_index ≥ creation_threads_shutdown_from then CreationThreadAction.exit
    else CreationThreadAction.wait
  else CreationThreadAction.dequeue creation_queue.headI

/-! Auxiliary lemmas about the byte-stream encoding and the loaders. -/

theorem encodeLE_length (n v : Nat) : (encodeLE n v).length = n := by
  induction n generalizing v with
  | zero => rfl
  | succ n ih => simp [encodeLE, ih]

theorem decodeLE_encodeLE (n v : Nat) : decodeLE (encodeLE n v) = v % 256 ^ n := by
  induction n generalizing v with
  | zero => simp [encodeLE, decodeLE, Nat.mod_one]
  | succ n ih =>
    rw [encodeLE, decodeLE, ih, Nat.pow_succ, Nat.mul_comm (256 ^ n) 256,
      Nat.mod_mul, Nat.mod_mod_of_dvd v (dvd_refl 256)]

theorem decodeLE_encodeLE_of_lt {n v : Nat} (h : v < 256 ^ n) :
    decodeLE (encodeLE n v) = v := by
  rw [decodeLE_encodeLE, Nat.mod_eq_of_lt h]

theorem encodeShaderRecord_length (h : Nat) (r : ShaderRecord)
    (hm : r.meta.length = 12) :
    (encodeShaderRecord h r).length = shaderHeaderSize + r.ucode.length := by
  simp [encodeShaderRecord, encodeLE_length, hm, shaderHeaderSize]
  omega

/-- Field extraction from an encoded shader record followed by arbitrary
further bytes. -/
theorem encodeShaderRecord_split (h : Nat) (r : ShaderRecord) (bs : List Nat)
    (hm : r.meta.length = 12) :
    (encodeShaderRecord h r ++ bs).take 8 = encodeLE 8 h ∧
      ((encodeShaderRecord h r ++ bs).drop 8).take 4 = encodeLE 4 (r.ucode.length / 4) ∧
      ((encodeShaderRecord h r ++ bs).drop 12).take 12 = r.meta ∧
      (encodeShaderRecord h r ++ bs).drop shaderHeaderSize = r.ucode ++ bs := by
  have h8 : (encodeLE 8 h).length = 8 := encodeLE_length 8 h
  have h4 : (encodeLE 4 (r.ucode.length / 4)).length = 4 := encodeLE_length 4 _
  refine ⟨?_, ?_, ?_, ?_⟩
  · rw [encodeShaderRecord, List.append_assoc, List.append_assoc, List.append_assoc,
      List.take_left' h8]
  · rw [encodeShaderRecord, List.append_assoc, List.append_assoc, List.append_assoc,
      List.drop_left' h8, List.take_left' h4]
  · rw [encodeShaderRecord, List.append_assoc, List.append_assoc, List.append_assoc,
      show (12 : Nat) = 8 + 4 from rfl, ← List.drop_drop,
      List.drop_left' h8, List.drop_left' h4, List.take_left' hm]
  · rw [encodeShaderRecord, List.append_assoc, List.append_assoc, List.append_assoc,
      show shaderHeaderSize = 8 + (4 + 12) from rfl, ← List.drop_drop, ← List.drop_drop,
      List.drop_left' h8, List.drop_left' h4]
    rw [show (12 : Nat) = r.meta.length from hm.symm, List.drop_left]

/-- Acceptance step of the shader load loop: a hash-valid record whose
hash is not yet known is read, validated and added to the map, and the
valid byte count advances past it. -/
theorem loadShaderGo_step_accept (H : List Nat → Nat) (fuel : Nat)
    (known : List Nat) (bs : List Nat) (acc : List (Nat × ShaderRecord))
    (valid : Nat) (h : Nat) (r : ShaderRecord)
    (hg : GoodShaderRecord H h r) (hknown : h ∉ known) :
    loadShaderGo H (fuel + 1) known (encodeShaderRecord h r ++ bs) acc valid =
      loadShaderGo H fuel (h :: known) bs (acc ++ [(h, r)])
        (valid + (shaderHeaderSize + r.ucode.length)) := by
  obtain ⟨hm, hdvd, hlt, hclt, hhash⟩ := hg
  obtain ⟨e8, e4, em, erest⟩ := encodeShaderRecord_split h r bs hm
  have hh : decodeLE ((encodeShaderRecord h r ++ bs).take 8) = h := by
    rw [e8]; exact decodeLE_encodeLE_of_lt hlt
  have hc : decodeLE (((encodeShaderRecord h r ++ bs).drop 8).take 4) =
      r.ucode.length / 4 := by
    rw [e4]; exact decodeLE_encodeLE_of_lt hclt
  have hc4 : r.ucode.length / 4 * 4 = r.ucode.length := Nat.div_mul_cancel hdvd
  have hlen : ¬ (encodeShaderRecord h r ++ bs).length < shaderHeaderSize := by
    rw [List.length_append, encodeShaderRecord_length h r hm]
    omega
  rw [loadShaderGo]
  simp only [hh, hc, em, erest, hc4]
  rw [if_neg hlen, if_neg hknown, if_neg (by rw [List.length_append]; omega)]
  rw [List.take_left, List.drop_left]
  rw [if_neg (by rw [hhash]; exact fun hne => hne rfl)]

/-- Rejection step of the shader load loop: on junk bytes the loop stops
with everything unchanged. -/
theorem loadShaderGo_reject (H : List Nat → Nat) (fuel : Nat) (known : List Nat)
    (junk : List Nat) (acc : List (Nat × ShaderRecord)) (valid : Nat)
    (hj : ShaderJunkRejected H known junk) :
    loadShaderGo H (fuel + 1) known junk acc valid = (acc, known, valid) := by
  simp only [loadShaderGo]
  by_cases hlen : junk.length < shaderHeaderSize
  · rw [if_pos hlen]
  · rw [if_neg hlen]
    rcases hj with hlen' | ⟨hnk, hrest⟩
    · exact absurd hlen' hlen
    · rw [if_neg hnk]
      rcases hrest with hshort | hmis
      · rw [if_pos hshort]
      · by_cases hs :
          (junk.drop shaderHeaderSize).length < decodeLE ((junk.drop 8).take 4) * 4
        · rw [if_pos hs]
        · rw [if_neg hs, if_pos hmis]

theorem length_le_encodeShaderRecords (rs : List (Nat × ShaderRecord)) :
    rs.length ≤ (encodeShaderRecords rs).length := by
  induction rs with
  | nil => simp [encodeShaderRecords]
  | cons p tl ih =>
    obtain ⟨h, r⟩ := p
    have h8 : (encodeLE 8 h).length = 8 := encodeLE_length 8 h
    simp only [encodeShaderRecords, encodeShaderRecord, List.length_cons,
      List.length_append, h8]
    omega

/-- The shader load loop over a list of fresh hash-valid records followed
by rejected junk: every record is accepted and added, and the valid byte
count advances over exactly the records. -/
theorem loadShaderGo_records (H : List Nat → Nat) (rs : List (Nat × ShaderRecord))
    (junk : List Nat) :
    ∀ (fuel : Nat) (known : List Nat) (acc : List (Nat × ShaderRecord)) (valid : Nat),
      rs.length < fuel →
      (∀ p ∈ rs, GoodShaderRecord H p.1 p.2) →
      (rs.map Prod.fst).Nodup →
      (∀ x ∈ rs.map Prod.fst, x ∉ known) →
      ShaderJunkRejected H ((rs.map Prod.fst).reverse ++ known) junk →
      loadShaderGo H fuel known (encodeShaderRecords rs ++ junk) acc valid =
        (acc ++ rs, (rs.map Prod.fst).reverse ++ known,
          valid + (encodeShaderRecords rs).length) := by
  induction rs with
  | nil =>
    intro fuel known acc valid hfuel _ _ _ hj
    obtain ⟨f, rfl⟩ : ∃ f, fuel = f + 1 := ⟨fuel - 1, by omega⟩
    simp only [encodeShaderRecords, List.nil_append, List.map_nil,
      List.reverse_nil] at hj ⊢
    rw [loadShaderGo_reject H f known junk acc valid hj]
    simp
  | cons p tl ih =>
    intro fuel known acc valid hfuel hgood hnd hdisj hj
    obtain ⟨h, r⟩ := p
    obtain ⟨f, rfl⟩ : ∃ f, fuel = f + 1 := ⟨fuel - 1, by omega⟩
    have hghead : GoodShaderRecord H h r := hgood (h, r) (List.mem_cons_self _ _)
    have hknown : h ∉ known := hdisj h (by simp)
    rw [encodeShaderRecords, List.append_assoc,
      loadShaderGo_step_accept H f known _ acc valid h r hghead hknown]
    have hndtl : (tl.map Prod.fst).Nodup := (List.nodup_cons.mp hnd).2
    have hhtl : h ∉ tl.map Prod.fst := (List.nodup_cons.mp hnd).1
    rw [ih f (h :: known) (acc ++ [(h, r)]) _
      (by simpa using Nat.lt_of_succ_lt_succ hfuel)
      (fun q hq => hgood q (List.mem_cons_of_mem _ hq)) hndtl
      (by
        intro x hx
        simp only [List.mem_cons]
        push_neg
        exact ⟨fun hxh => hhtl (hxh ▸ hx), hdisj x (by simp [hx])⟩)
      (by
        have heq : ((tl.map Prod.fst).reverse ++ (h :: known)) =
            ((((h, r) :: tl).map Prod.fst).reverse ++ known) := by
          simp
        rw [heq]
        exact hj)]
    have hlenrec : (encodeShaderRecord h r).length = shaderHeaderSize + r.ucode.length :=
      encodeShaderRecord_length h r hghead.1
    simp only [Prod.mk.injEq]
    refine ⟨by simp, by simp, ?_⟩
    simp only [encodeShaderRecords, List.length_append, hlenrec]
    omega

theorem encodePipelineRecords_length (descSize : Nat) (cs : List (Nat × List Nat))
    (hgood : ∀ p ∈ cs, (p.2 : List Nat).length = descSize) :
    (encodePipelineRecords cs).length = cs.length * (8 + descSize) := by
  induction cs with
  | nil => simp [encodePipelineRecords]
  | cons p tl ih =>
    obtain ⟨h, d⟩ := p
    have hd : d.length = descSize := hgood (h, d) (List.mem_cons_self _ _)
    have h8 : (encodeLE 8 h).length = 8 := encodeLE_length 8 h
    simp only [encodePipelineRecords, List.length_append, List.length_cons, h8, hd,
      ih (fun q hq => hgood q (List.mem_cons_of_mem _ hq))]
    ring

/-- The pipeline validation loop over hash-valid records followed by
rejected junk: every record is accepted, in order, and the valid byte
count advances over exactly the records. -/
theorem loadPipelineGo_records (H : List Nat → Nat) (descSize : Nat)
    (cs : List (Nat × List Nat)) (junk : List Nat) (extra : Nat)
    (hgood : ∀ p ∈ cs, (p.2 : List Nat).length = descSize ∧ p.1 < 2 ^ 64 ∧ H p.2 = p.1)
    (hj : PipelineJunkRejected H descSize junk)
    (hextra : junk.length < 8 + descSize → extra = 0) :
    loadPipelineGo H descSize (cs.length + extra) (encodePipelineRecords cs ++ junk) =
      (cs, cs.length * (8 + descSize)) := by
  induction cs with
  | nil =>
    simp only [encodePipelineRecords, List.nil_append, List.length_nil, Nat.zero_add,
      Nat.zero_mul]
    rcases hj with hshort | hmis
    · rw [hextra hshort]; rfl
    · cases extra with
      | zero => rfl
      | succ e =>
        rw [loadPipelineGo]
        rw [if_pos hmis]
  | cons p tl ih =>
    obtain ⟨h, d⟩ := p
    obtain ⟨hd, hlt, hh⟩ := hgood (h, d) (List.mem_cons_self _ _)
    have h8 : (encodeLE 8 h).length = 8 := encodeLE_length 8 h
    have hsplit : encodePipelineRecords ((h, d) :: tl) ++ junk =
        encodeLE 8 h ++ (d ++ (encodePipelineRecords tl ++ junk)) := by
      simp [encodePipelineRecords, List.append_assoc]
    rw [List.length_cons, Nat.succ_add, hsplit, loadPipelineGo]
    have htake8 :
        decodeLE ((encodeLE 8 h ++ (d ++ (encodePipelineRecords tl ++ junk))).take 8) = h := by
      rw [List.take_left' h8]
      exact decodeLE_encodeLE_of_lt hlt
    have htaked :
        ((encodeLE 8 h ++ (d ++ (encodePipelineRecords tl ++ junk))).drop 8).take descSize = d := by
      rw [List.drop_left' h8, List.take_left' hd]
    simp only [htake8, htaked]
    rw [if_neg (by rw [hh]; exact fun hne => hne rfl)]
    have hdrop :
        (encodeLE 8 h ++ (d ++ (encodePipelineRecords tl ++ junk))).drop (8 + descSize) =
          encodePipelineRecords tl ++ junk := by
      rw [← List.drop_drop, List.drop_left' h8, List.drop_left' hd]
    rw [hdrop, ih (fun q hq => hgood q (List.mem_cons_of_mem _ hq))]
    simp
    ring

instance (H : List Nat → Nat) (h : Nat) (r : ShaderRecord) :
    Decidable (GoodShaderRecord H h r) := by
  unfold GoodShaderRecord
  infer_instance

instance (H : List Nat → Nat) (known junk : List Nat) :
    Decidable (ShaderJunkRejected H known junk) := by
  unfold ShaderJunkRejected
  infer_instance

instance (H : List Nat → Nat) (descSize : Nat) (junk : List Nat) :
    Decidable (PipelineJunkRejected H descSize junk) := by
  unfold PipelineJunkRejected
  infer_instance

/-- A simple executable stand-in content hash used for concrete
evaluations of the model (the properties proved above hold for every
hash function): the byte sum reduced into the 64-bit range. -/
def byteSumHash (l : List Nat) : Nat := (l.foldr (· + ·) 0) % 2 ^ 64

/-- A concrete one-dword shader record whose `byteSumHash` is 7. -/
def sampleRecordA : ShaderRecord := ⟨List.replicate 12 0, [7, 0, 0, 0]⟩

/-- A concrete one-dword shader record whose `byteSumHash` is 9. -/
def sampleRecordB : ShaderRecord := ⟨List.replicate 12 0, [9, 0, 0, 0]⟩

/-- The already-known-hash branch on a truncated payload, concretely:
with hash 5 already in the shader map, a trailing stored header carrying
hash 5 and a ucode dword count of 10 — but no payload bytes at all — is
still counted into the valid byte offset, because the seek past the
payload (`xe::filesystem::Seek`, a `fseek` wrapper, lines 311-315)
succeeds beyond end-of-file; the loop then stops at the next failing
header read with 72 valid bytes recorded for a 24-byte body. -/
theorem loadShaderStorage_counts_past_eof_seek :
    loadShaderStorage byteSumHash [5]
        (encodeLE 8 5 ++ encodeLE 4 10 ++ List.replicate 12 0) =
      ([], [5], shaderFileHeaderSize + (shaderHeaderSize + 40)) ∧
    (encodeLE 8 5 ++ encodeLE 4 10 ++ List.replicate 12 0).length =
      shaderHeaderSize := by
  refine ⟨by decide, by decide⟩

/-- C1 amended: for both persisted logs whose header matches, loading a
body consisting of hash-valid records —  with fresh, pairwise distinct
hashes in the shader log — followed by trailing bytes that do not parse
as an acceptable record yields exactly those records, and the
valid-bytes offset the file is truncated to covers exactly the file
header plus those records.  (The claim's unrestricted form is false
because a trailing shader record whose stored hash is already in the
shader map is accepted without its hash being recomputed; see the
counterexample.) -/
theorem storage_load_accepts_exactly_valid_records
    (H : List Nat → Nat) (known : List Nat) (rs : List (Nat × ShaderRecord))
    (junk : List Nat) (descSize : Nat) (cs : List (Nat × List Nat)) (pjunk : List Nat)
    (hgood : ∀ p ∈ rs, GoodShaderRecord H p.1 p.2)
    (hnd : (rs.map Prod.fst).Nodup)
    (hdisj : ∀ x ∈ rs.map Prod.fst, x ∉ known)
    (hjunk : ShaderJunkRejected H ((rs.map Prod.fst).reverse ++ known) junk)
    (hpgood : ∀ p ∈ cs, (p.2 : List Nat).length = descSize ∧ p.1 < 2 ^ 64 ∧ H p.2 = p.1)
    (hpjunk : PipelineJunkRejected H descSize pjunk) :
    loadShaderStorage H known (encodeShaderRecords rs ++ junk) =
      (rs, (rs.map Prod.fst).reverse ++ known,
        shaderFileHeaderSize + (encodeShaderRecords rs).length) ∧
    loadPipelineStorage H descSize (encodePipelineRecords cs ++ pjunk) =
      (cs, pipelineFileHeaderSize + cs.length * (8 + descSize)) := by
  constructor
  · unfold loadShaderStorage
    have hfuel : rs.length < (encodeShaderRecords rs ++ junk).length + 1 := by
      have := length_le_encodeShaderRecords rs
      rw [List.length_append]
      omega
    rw [loadShaderGo_records H rs junk _ known [] shaderFileHeaderSize hfuel hgood hnd
      hdisj hjunk]
    simp
  · unfold loadPipelineStorage
    have h0 : 0 < 8 + descSize := by omega
    have hlen : (encodePipelineRecords cs ++ pjunk).length =
        pjunk.length + (8 + descSize) * cs.length := by
      rw [List.length_append,
        encodePipelineRecords_length descSize cs (fun p hp => (hpgood p hp).1)]
      ring
    rw [hlen, Nat.add_mul_div_left _ _ h0, Nat.add_comm (pjunk.length / (8 + descSize)),
      loadPipelineGo_records H descSize cs pjunk _ hpgood hpjunk
        (fun hshort => Nat.div_eq_of_lt hshort)]

/-- Witness for `storage_load_accepts_exactly_valid_records`: one valid
shader record followed by three junk bytes, and one valid pipeline
record (description size 4) followed by two junk bytes. -/
theorem storage_load_accepts_exactly_valid_records_witness :
    loadShaderStorage byteSumHash [] (encodeShaderRecords [(7, sampleRecordA)] ++ [1, 2, 3]) =
      ([(7, sampleRecordA)], ([(7, sampleRecordA)].map Prod.fst).reverse ++ [],
        shaderFileHeaderSize + (encodeShaderRecords [(7, sampleRecordA)]).length) ∧
    loadPipelineStorage byteSumHash 4
        (encodePipelineRecords [(10, [1, 2, 3, 4])] ++ [0, 0]) =
      ([(10, [1, 2, 3, 4])], pipelineFileHeaderSize + [(10, [1, 2, 3, 4])].length * (8 + 4)) :=
  storage_load_accepts_exactly_valid_records byteSumHash [] [(7, sampleRecordA)]
    [1, 2, 3] 4 [(10, [1, 2, 3, 4])] [0, 0] (by decide) (by decide) (by decide)
    (by decide) (by decide) (by decide)

/-- C1 counterexample: a log holding one genuinely valid record (stored
hash 7, matching its payload) followed by a trailing record whose stored
hash is also 7 but whose payload hashes to 9.  The trailing record is not
fully valid — its recomputed content hash disagrees with its stored hash
— yet the load accepts it through the already-known-hash skip path
without recomputing anything: loading yields the one valid record but
reports 64 valid bytes, so the file is not truncated to the byte offset
of the last fully-valid record (36). -/
theorem shader_storage_truncation_beyond_valid_records :
    byteSumHash sampleRecordB.ucode ≠ 7 ∧
    loadShaderStorage byteSumHash []
        (encodeShaderRecords [(7, sampleRecordA)] ++ encodeShaderRecord 7 sampleRecordB) =
      ([(7, sampleRecordA)], [7], 64) ∧
    shaderFileHeaderSize + (encodeShaderRecords [(7, sampleRecordA)]).length = 36 := by
  refine ⟨by decide, by decide, by decide⟩

/-- C5 amended: the load procedure recomputes the hash of every record it
must read and treats it as valid exactly when the recomputed hash equals
the stored one — for every shader record whose stored hash is not already
in the shader map, and for every pipeline record; a shader record whose
stored hash is already present is skipped without recomputation (see the
counterexample). -/
theorem storage_record_valid_iff_hash_matches
    (H : List Nat → Nat) (known : List Nat) (h : Nat) (r : ShaderRecord)
    (junk : List Nat) (descSize : Nat) (ph : Nat) (d : List Nat) (pjunk : List Nat)
    (hm : r.meta.length = 12) (hdvd : 4 ∣ r.ucode.length)
    (hlt : h < 2 ^ 64) (hclt : r.ucode.length / 4 < 2 ^ 32)
    (hnew : h ∉ known)
    (hjunk : ShaderJunkRejected H (h :: known) junk)
    (hd : d.length = descSize) (hplt : ph < 2 ^ 64)
    (hpjunk : PipelineJunkRejected H descSize pjunk) :
    loadShaderStorage H known (encodeShaderRecord h r ++ junk) =
      (if H r.ucode = h
        then ([(h, r)], h :: known,
          shaderFileHeaderSize + (shaderHeaderSize + r.ucode.length))
        else ([], known, shaderFileHeaderSize)) ∧
    loadPipelineStorage H descSize (encodeLE 8 ph ++ d ++ pjunk) =
      (if H d = ph
        then ([(ph, d)], pipelineFileHeaderSize + (8 + descSize))
        else ([], pipelineFileHeaderSize)) := by
  have h8e : (encodeLE 8 ph).length = 8 := encodeLE_length 8 ph
  constructor
  · by_cases hh : H r.ucode = h
    · rw [if_pos hh]
      have hbody : encodeShaderRecord h r ++ junk = encodeShaderRecords [(h, r)] ++ junk := by
        simp [encodeShaderRecords]
      have := (storage_load_accepts_exactly_valid_records H known [(h, r)] junk 0 [] []
        (by
          intro p hp
          simp only [List.mem_singleton] at hp
          subst hp
          exact ⟨hm, hdvd, hlt, hclt, hh⟩)
        (by simp) (by simpa using hnew) (by simpa using hjunk) (by simp)
        (Or.inl (by simp))).1
      rw [hbody, this]
      have : (encodeShaderRecords [(h, r)]).length = shaderHeaderSize + r.ucode.length := by
        simp [encodeShaderRecords, encodeShaderRecord_length h r hm]
      rw [this]
      simp
    · rw [if_neg hh]
      obtain ⟨e8, e4, em, erest⟩ := encodeShaderRecord_split h r junk hm
      have hrej : ShaderJunkRejected H known (encodeShaderRecord h r ++ junk) := by
        refine Or.inr ⟨?_, Or.inr ?_⟩
        · rw [e8, decodeLE_encodeLE_of_lt hlt]
          exact hnew
        · rw [e8, e4, erest, decodeLE_encodeLE_of_lt hlt, decodeLE_encodeLE_of_lt hclt,
            Nat.div_mul_cancel hdvd, List.take_left]
          exact fun heq => hh heq
      unfold loadShaderStorage
      rw [loadShaderGo_reject H _ known _ [] shaderFileHeaderSize hrej]
  · by_cases hph : H d = ph
    · rw [if_pos hph]
      have hbody : encodeLE 8 ph ++ d ++ pjunk = encodePipelineRecords [(ph, d)] ++ pjunk := by
        simp [encodePipelineRecords]
      have := (storage_load_accepts_exactly_valid_records H [] [] [] descSize [(ph, d)] pjunk
        (by simp) (by simp) (by simp) (Or.inl (by simp [shaderHeaderSize]))
        (by
          intro p hp
          simp only [List.mem_singleton] at hp
          subst hp
          exact ⟨hd, hplt, hph⟩)
        hpjunk).2
      rw [hbody, this]
      simp
    · rw [if_neg hph]
      have hrej : PipelineJunkRejected H descSize (encodeLE 8 ph ++ d ++ pjunk) := by
        refine Or.inr ?_
        rw [List.append_assoc, List.take_left' h8e, List.drop_left' h8e,
          List.take_left' hd, decodeLE_encodeLE_of_lt hplt]
        exact fun heq => hph heq
      have hblen : (encodeLE 8 ph ++ d ++ pjunk).length = 8 + descSize + pjunk.length := by
        rw [List.append_assoc, List.length_append, List.length_append, h8e, hd]
        omega
      have := loadPipelineGo_records H descSize [] (encodeLE 8 ph ++ d ++ pjunk)
        ((encodeLE 8 ph ++ d ++ pjunk).length / (8 + descSize))
        (by simp) hrej (fun hshort => by rw [hblen] at hshort; omega)
      unfold loadPipelineStorage
      simp only [List.nil_append, encodePipelineRecords, List.length_nil,
        Nat.zero_add, Nat.zero_mul] at this
      rw [this]
      simp

/-- Witness for `storage_record_valid_iff_hash_matches`: a fresh valid
shader record (both branches of the conditional are exercised between
this witness and the C1 counterexample) and a valid pipeline record. -/
theorem storage_record_valid_iff_hash_matches_witness :
    loadShaderStorage byteSumHash [] (encodeShaderRecord 7 sampleRecordA ++ [1, 2]) =
      (if byteSumHash sampleRecordA.ucode = 7
        then ([(7, sampleRecordA)], [7],
          shaderFileHeaderSize + (shaderHeaderSize + sampleRecordA.ucode.length))
        else ([], [], shaderFileHeaderSize)) ∧
    loadPipelineStorage byteSumHash 4 (encodeLE 8 10 ++ [1, 2, 3, 4] ++ [0, 0]) =
      (if byteSumHash [1, 2, 3, 4] = 10
        then ([(10, [1, 2, 3, 4])], pipelineFileHeaderSize + (8 + 4))
        else ([], pipelineFileHeaderSize)) :=
  storage_record_valid_iff_hash_matches byteSumHash [] 7 sampleRecordA [1, 2] 4 10
    [1, 2, 3, 4] [0, 0] (by decide) (by decide) (by decide) (by decide) (by decide)
    (by decide) (by decide) (by decide) (by decide)

/-- C5 counterexample: with hash 5 already present in the shader map, a
stored record carrying stored hash 5 but a payload that hashes to 9 is
accepted by the load — the valid byte offset advances past it to 36 and
streaming continues — without the content hash ever being recomputed, so
the record is treated as valid although its stored hash does not match a
hash recomputed over its payload. -/
theorem shader_storage_known_hash_record_not_validated :
    byteSumHash sampleRecordB.ucode = 9 ∧
    loadShaderStorage byteSumHash [5] (encodeShaderRecord 5 sampleRecordB) =
      ([], [5], 36) := by
  refine ⟨by decide, by decide⟩

/-- C9: `LoadShader` is idempotent — a second call with identical ucode
bytes returns the same shader object, leaves the shader map unchanged
(inserts nothing), and reports that nothing was created; `LoadShader`
contains no call into the translator on any path, so in particular the
second call triggers no translation. -/
theorem LoadShader_idempotent (H : List Nat → Nat) (m : List (Nat × D3D12Shader))
    (ucode : List Nat) :
    LoadShader H ((LoadShader H m ucode).2.1) ucode =
      ((LoadShader H m ucode).1, (LoadShader H m ucode).2.1, false) := by
  unfold LoadShader
  cases hf : findShader? m (H ucode) with
  | some sh => simp [hf]
  | none =>
    simp only [hf]
    simp [findShader?, List.find?_cons_of_pos]

theorem shaderState_setShaderState_ne (m : List (Nat × D3D12Shader)) (v : Nat)
    (st : ShaderTranslationState) (h : Nat) (hne : h ≠ v) :
    shaderState (setShaderState m v st) h = shaderState m h := by
  induction m with
  | nil => rfl
  | cons p tl ih =>
    obtain ⟨k, sh⟩ := p
    by_cases hkv : k = v
    · subst hkv
      have hkh : (k == h) = false := by
        simp only [beq_eq_false_iff_ne]
        exact fun hkh => hne hkh.symm
      simp only [setShaderState, List.map_cons, if_pos (beq_self_eq_true k)] at ih ⊢
      simp only [shaderState, findShader?, List.find?, hkh] at ih ⊢
      exact ih
    · have hkv' : (k == v) = false := by simpa using hkv
      simp only [setShaderState, List.map_cons, hkv', if_neg, Bool.false_eq_true,
        ite_false] at ih ⊢
      cases hkh : k == h with
      | true => simp [shaderState, findShader?, List.find?, hkh]
      | false =>
        simp only [shaderState, findShader?, List.find?, hkh] at ih ⊢
        exact ih

/-- A finished translation attempt is never repeated by the pixel-shader
step, and its recorded state is preserved. -/
theorem ensurePixelTranslated_skips_done (T : Nat → Bool) (storageOpen : Bool)
    (m : List (Nat × D3D12Shader)) (p : Option Nat) (evs : List CacheEvent) (h : Nat)
    (hdone : shaderState m h ≠ ShaderTranslationState.untranslated)
    (hevs : CacheEvent.translated h ∉ evs) :
    CacheEvent.translated h ∉ (ensurePixelTranslated T storageOpen m p evs).2.2 ∧
      shaderState (ensurePixelTranslated T storageOpen m p evs).2.1 h =
        shaderState m h := by
  unfold ensurePixelTranslated
  cases p with
  | none => exact ⟨hevs, rfl⟩
  | some ph =>
    dsimp only
    by_cases hp : shaderState m ph = ShaderTranslationState.untranslated
    · have hph : h ≠ ph := fun hh => hdone (hh ▸ hp)
      rw [if_pos hp]
      cases hT : T ph with
      | false =>
        simp only [Bool.false_eq_true, ite_false]
        refine ⟨?_, shaderState_setShaderState_ne m ph _ h hph⟩
        simp only [List.mem_append, List.mem_singleton]
        push_neg
        exact ⟨hevs, by simp [hph]⟩
      | true =>
        simp only [ite_true]
        refine ⟨?_, shaderState_setShaderState_ne m ph _ h hph⟩
        simp only [List.mem_append, List.mem_singleton]
        push_neg
        refine ⟨⟨hevs, by simp [hph]⟩, ?_⟩
        cases storageOpen <;> simp
    · rw [if_neg hp]
      exact ⟨hevs, rfl⟩


/-- A finished translation attempt is never repeated by
`EnsureShadersTranslated`, and its recorded state is preserved. -/
theorem EnsureShadersTranslated_skips_done (T : Nat → Bool) (storageOpen : Bool)
    (m : List (Nat × D3D12Shader)) (v : Nat) (p : Option Nat) (h : Nat)
    (hdone : shaderState m h ≠ ShaderTranslationState.untranslated) :
    CacheEvent.translated h ∉ (EnsureShadersTranslated T storageOpen m v p).2.2 ∧
      shaderState (EnsureShadersTranslated T storageOpen m v p).2.1 h =
        shaderState m h := by
  unfold EnsureShadersTranslated
  by_cases hv : shaderState m v = ShaderTranslationState.untranslated
  · have hvh : h ≠ v := fun hh => hdone (hh ▸ hv)
    rw [if_pos hv]
    cases hT : T v with
    | false =>
      simp only [Bool.false_eq_true, ite_false]
      refine ⟨?_, shaderState_setShaderState_ne m v _ h hvh⟩
      simp [hvh]
    | true =>
      simp only [ite_true]
      have hm1 : shaderState (setShaderState m v ShaderTranslationState.translated) h =
          shaderState m h := shaderState_setShaderState_ne m v _ h hvh
      have := ensurePixelTranslated_skips_done T storageOpen
        (setShaderState m v ShaderTranslationState.translated) p
        ([CacheEvent.translated v] ++
          (if storageOpen then [CacheEvent.persistedShader v] else [])) h
        (by rw [hm1]; exact hdone)
        (by
          simp only [List.mem_append, List.mem_singleton]
          push_neg
          refine ⟨by simp [hvh], ?_⟩
          cases storageOpen <;> simp)
      exact ⟨this.1, this.2.trans hm1⟩
  · rw [if_neg hv]
    exact ensurePixelTranslated_skips_done T storageOpen m p [] h hdone (by simp)

/-- The slow path of `ConfigurePipeline` never repeats a finished
translation attempt and preserves its recorded state. -/
theorem configurePipelineSlow_skips_done (Hd : PipelineDescription → Nat)
    (T : Nat → Bool) (s : PipelineCacheState) (args : ConfigureArgs)
    (runtime : PipelineRuntimeDescription) (h : Nat)
    (hdone : shaderState s.shader_map h ≠ ShaderTranslationState.untranslated) :
    CacheEvent.translated h ∉ (configurePipelineSlow Hd T s args runtime).2.2 ∧
      shaderState (configurePipelineSlow Hd T s args runtime).2.1.shader_map h =
        shaderState s.shader_map h := by
  unfold configurePipelineSlow
  dsimp only
  cases hf : findPipelineState Hd s.pipeline_states runtime.description with
  | some e => exact ⟨by simp, rfl⟩
  | none =>
    dsimp only
    have hens := EnsureShadersTranslated_skips_done T s.shader_storage_file.isSome
      s.shader_map args.vertexHash args.pixelHash h hdone
    by_cases he : (EnsureShadersTranslated T s.shader_storage_file.isSome
        s.shader_map args.vertexHash args.pixelHash).1
    · rw [if_pos he]
      refine ⟨?_, hens.2⟩
      simp only [List.mem_append]
      push_neg
      refine ⟨⟨hens.1, ?_⟩, ?_⟩
      · split <;> simp
      · split <;> simp
    · rw [if_neg he]
      exact hens

/-- C3 amended: a shader whose translation attempt has finished — in
particular one that failed, a terminal state — is never handed to the
translator again by any later configuration request, and its recorded
state is preserved; however, contrary to the claim, such a later request
does not fail on account of the failed shader: `EnsureShadersTranslated`
skips any shader whose attempt already finished and reports success for
it, so configuration proceeds (see the counterexample). -/
theorem failed_translation_terminal_never_retried (Hd : PipelineDescription → Nat)
    (R : ConfigureArgs → Option Nat) (T : Nat → Bool)
    (s : PipelineCacheState) (args : ConfigureArgs) (h : Nat)
    (hdone : shaderState s.shader_map h ≠ ShaderTranslationState.untranslated) :
    CacheEvent.translated h ∉ (ConfigurePipeline Hd R T s args).2.2 ∧
      shaderState (ConfigurePipeline Hd R T s args).2.1.shader_map h =
        shaderState s.shader_map h := by
  unfold ConfigurePipeline
  cases hg : GetCurrentStateDescription R args with
  | none => exact ⟨by simp, rfl⟩
  | some runtime =>
    cases hc : s.current_pipeline_state with
    | none => exact configurePipelineSlow_skips_done Hd T s args runtime h hdone
    | some cur =>
      dsimp only
      by_cases hfast : cur.runtime.description = runtime.description
      · rw [if_pos hfast]
        exact ⟨by simp, rfl⟩
      · rw [if_neg hfast]
        exact configurePipelineSlow_skips_done Hd T s args runtime h hdone

/-- The empty cache state with no creation threads and no persistence. -/
def emptyCacheState : PipelineCacheState :=
  { shader_map := []
    pipeline_states := []
    current_pipeline_state := none
    next_id := 0
    creation_queue := []
    creation_threads_busy := 0
    creation_threads := 0
    storage_write_thread := false
    shader_storage_file := none
    pipeline_storage_file := none }

/-- A cache state holding one untranslated shader with ucode hash 5. -/
def oneShaderCacheState : PipelineCacheState :=
  { emptyCacheState with
    shader_map := [(5, ⟨5, [1, 2, 3, 4], ShaderTranslationState.untranslated⟩)] }

/-- Configuration arguments referring to vertex shader hash 5 and no
pixel shader. -/
def sampleArgs : ConfigureArgs :=
  { vertexHash := 5, pixelHash := none, regFields := [], rts := [], edramRov := false }

/-- Witness for `failed_translation_terminal_never_retried` at concrete
inputs: a shader already marked failed is not retranslated and stays
failed. -/
theorem failed_translation_terminal_never_retried_witness :
    CacheEvent.translated 5 ∉
      (ConfigurePipeline (fun _ => 0) (fun _ => some 0) (fun _ => false)
        { oneShaderCacheState with
          shader_map := [(5, ⟨5, [1, 2, 3, 4], ShaderTranslationState.failed⟩)] }
        sampleArgs).2.2 ∧
    shaderState
      (ConfigurePipeline (fun _ => 0) (fun _ => some 0) (fun _ => false)
        { oneShaderCacheState with
          shader_map := [(5, ⟨5, [1, 2, 3, 4], ShaderTranslationState.failed⟩)] }
        sampleArgs).2.1.shader_map 5 =
    shaderState
      [(5, ⟨5, [1, 2, 3, 4], ShaderTranslationState.failed⟩)] 5 :=
  failed_translation_terminal_never_retried (fun _ => 0) (fun _ => some 0)
    (fun _ => false)
    { oneShaderCacheState with
      shader_map := [(5, ⟨5, [1, 2, 3, 4], ShaderTranslationState.failed⟩)] }
    sampleArgs 5 (by decide)

/-- C3 counterexample: a configuration request whose vertex shader fails
translation returns failure and marks the shader failed; but the second
configuration request using the same microcode hash does not fail — it
succeeds (creating a pipeline entry that references the invalid shader)
— although it indeed never invokes the translator again.  The claim that
every later request fails immediately is false on the code. -/
theorem configure_after_failed_translation_succeeds :
    (ConfigurePipeline (fun _ => 0) (fun _ => some 0) (fun _ => false)
      oneShaderCacheState sampleArgs).1 = none ∧
    shaderState (ConfigurePipeline (fun _ => 0) (fun _ => some 0) (fun _ => false)
      oneShaderCacheState sampleArgs).2.1.shader_map 5 =
      ShaderTranslationState.failed ∧
    (ConfigurePipeline (fun _ => 0) (fun _ => some 0) (fun _ => false)
      (ConfigurePipeline (fun _ => 0) (fun _ => some 0) (fun _ => false)
        oneShaderCacheState sampleArgs).2.1 sampleArgs).1.isSome = true ∧
    (∀ ev ∈ (ConfigurePipeline (fun _ => 0) (fun _ => some 0) (fun _ => false)
      (ConfigurePipeline (fun _ => 0) (fun _ => some 0) (fun _ => false)
        oneShaderCacheState sampleArgs).2.1 sampleArgs).2.2,
      ev ≠ CacheEvent.translated 5) := by
  decide

theorem getD_replicate_self {α : Type} (n i : Nat) (a : α) :
    (List.replicate n a).getD i a = a := by
  induction n generalizing i with
  | zero => simp [List.replicate]
  | succ n ih =>
    cases i with
    | zero => simp [List.replicate]
    | succ i => simp only [List.replicate, List.getD_cons_succ]; exact ih i

/-- Any render-target slot at or past an unused target stays in its
zeroed state. -/
theorem fillRenderTargets_getD_zero (l : List (Option PipelineRenderTarget)) (i j : Nat)
    (hj : j ≤ i) (hnone : l.getD j none = none) :
    (fillRenderTargets l).getD i zeroRenderTarget = zeroRenderTarget := by
  induction l generalizing i j with
  | nil => simp [fillRenderTargets]
  | cons o tl ih =>
    cases o with
    | none =>
      simp only [fillRenderTargets]
      exact getD_replicate_self (tl.length + 1) i zeroRenderTarget
    | some rtv =>
      cases j with
      | zero => simp at hnone
      | succ j' =>
        cases i with
        | zero => omega
        | succ i' =>
          simp only [fillRenderTargets, List.getD_cons_succ] at hnone ⊢
          exact ih i' j' (by omega) hnone

/-- C8: the Description Builder zero-initializes the whole record before
filling any field — in the built description the pixel-shader-hash field
keeps its zeroed value when there is no pixel shader, and every
render-target slot at or past the first unused target keeps the zeroed
block (the fill loop breaks there) — and when resource-binding-layout
(root signature) resolution fails, the whole configuration call fails
before any cache state is mutated: the state is returned unchanged and
no shader is translated, nothing is enqueued and nothing is persisted. -/
theorem configure_layout_failure_no_mutation_and_zero_init
    (Hd : PipelineDescription → Nat) (R R2 : ConfigureArgs → Option Nat)
    (T : Nat → Bool) (s : PipelineCacheState) (args args2 : ConfigureArgs)
    (i : Nat) (rt : PipelineRuntimeDescription) :
    (R args = none → ConfigurePipeline Hd R T s args = (none, s, [])) ∧
    (GetCurrentStateDescription R2 args2 = some rt →
      (args2.pixelHash = none → rt.description.pixel_shader_hash = 0) ∧
      ((∃ j, j ≤ i ∧ args2.rts.getD j none = none) →
        rt.description.render_targets.getD i zeroRenderTarget = zeroRenderTarget)) := by
  constructor
  · intro hR
    unfold ConfigurePipeline GetCurrentStateDescription
    rw [hR]
  · intro hg
    unfold GetCurrentStateDescription at hg
    cases hr : R2 args2 with
    | none => rw [hr] at hg; exact absurd hg (by simp)
    | some rootSig =>
      rw [hr] at hg
      simp only [Option.some.injEq] at hg
      subst hg
      constructor
      · intro hp
        simp [hp, zeroPipelineDescription]
      · intro ⟨j, hj, hnone⟩
        by_cases hrov : args2.edramRov
        · simp [hrov, zeroPipelineDescription]
        · simp only [hrov, Bool.false_eq_true, ite_false]
          exact fillRenderTargets_getD_zero args2.rts i j hj hnone

/-- Witness for `configure_layout_failure_no_mutation_and_zero_init`:
failing layout resolution leaves the state untouched with no events, and
a successful build with no pixel shader and an unused first render
target leaves both fields zeroed. -/
theorem configure_layout_failure_no_mutation_and_zero_init_witness :
    ConfigurePipeline (fun _ => 0) (fun _ => none) (fun _ => true)
        oneShaderCacheState sampleArgs = (none, oneShaderCacheState, []) ∧
    ((match GetCurrentStateDescription (fun _ => some 3)
        { sampleArgs with rts := [none] } with
      | some rt => rt.description.pixel_shader_hash = 0 ∧
          rt.description.render_targets.getD 0 zeroRenderTarget = zeroRenderTarget
      | none => False) : Prop) := by
  have h := configure_layout_failure_no_mutation_and_zero_init (fun _ => 0)
    (fun _ => none) (fun _ => some 3) (fun _ => true) oneShaderCacheState sampleArgs
    { sampleArgs with rts := [none] } 0
    (GetCurrentStateDescription (fun _ => some 3)
      { sampleArgs with rts := [none] }).get!
  refine ⟨h.1 rfl, ?_⟩
  have h2 := h.2 (by rfl)
  exact ⟨h2.1 rfl, h2.2 ⟨0, Nat.le_refl 0, rfl⟩⟩

/-- C10: in every description built by the facade the pixel-shader-hash
field is zero when there is no pixel shader — set only by the initial
zeroing — and equals the pixel shader's ucode content hash otherwise,
and the pipeline-storage replay resolves a stored pixel-shader-hash of
zero to a null pixel shader without any Content Store lookup (the
resolved runtime description has no pixel shader no matter what the
shader map holds).  In particular a real pixel shader whose ucode hashed
to zero yields a description with field zero and is conflated with
absence on replay. -/
theorem pixel_shader_hash_zero_sentinel
    (R : ConfigureArgs → Option Nat) (args : ConfigureArgs)
    (rt : PipelineRuntimeDescription)
    (R2 : PipelineDescription → Option Nat) (m : List (Nat × D3D12Shader))
    (d : PipelineDescription) (rd : PipelineRuntimeDescription) :
    (GetCurrentStateDescription R args = some rt →
      (args.pixelHash = none → rt.description.pixel_shader_hash = 0) ∧
      (∀ ph, args.pixelHash = some ph → rt.description.pixel_shader_hash = ph)) ∧
    (d.pixel_shader_hash = 0 → resolveStoredPipeline R2 m d = some rd →
      rd.pixel_shader = none) := by
  constructor
  · intro hg
    unfold GetCurrentStateDescription at hg
    cases hr : R args with
    | none => rw [hr] at hg; exact absurd hg (by simp)
    | some rootSig =>
      rw [hr] at hg
      simp only [Option.some.injEq] at hg
      subst hg
      constructor
      · intro hp
        simp [hp, zeroPipelineDescription]
      · intro ph hp
        simp [hp]
  · intro hzero hres
    unfold resolveStoredPipeline at hres
    cases hv : findShader? m d.vertex_shader_hash with
    | none => rw [hv] at hres; exact absurd hres (by simp)
    | some vs =>
      rw [hv] at hres
      dsimp only at hres
      by_cases hval : is_valid vs
      · rw [if_neg (by simp [hval])] at hres
        rw [if_neg (not_not_intro hzero)] at hres
        cases hr2 : R2 d with
        | none => rw [hr2] at hres; exact absurd hres (by simp)
        | some rootSig =>
          rw [hr2] at hres
          simp only [Option.some.injEq] at hres
          rw [← hres]
      · rw [if_pos (by simp [Bool.not_eq_true] at hval; simp [hval])] at hres
        exact absurd hres (by simp)

/-- Witness for `pixel_shader_hash_zero_sentinel`: a build with no pixel
shader yields field zero and a build whose pixel shader hash is 7 yields
field 7; replaying a description with stored pixel hash zero resolves to
no pixel shader even though the shader map maps hash 0 to a valid
shader. -/
theorem pixel_shader_hash_zero_sentinel_witness :
    ((match GetCurrentStateDescription (fun _ => some 1) sampleArgs with
      | some rt => rt.description.pixel_shader_hash = 0
      | none => False) : Prop) ∧
    ((match resolveStoredPipeline (fun _ => some 2)
        [(5, ⟨5, [1, 2, 3, 4], ShaderTranslationState.translated⟩),
         (0, ⟨0, [9, 9, 9, 9], ShaderTranslationState.translated⟩)]
        { vertex_shader_hash := 5, pixel_shader_hash := 0, regFields := [],
          render_targets := [] } with
      | some rd => rd.pixel_shader = none
      | none => False) : Prop) := by
  constructor
  · have h := (pixel_shader_hash_zero_sentinel (fun _ => some 1) sampleArgs
      (GetCurrentStateDescription (fun _ => some 1) sampleArgs).get!
      (fun _ => some 2) [] zeroPipelineDescription
      ⟨0, 0, none, zeroPipelineDescription⟩).1 (by rfl)
    exact h.1 rfl
  · have h := (pixel_shader_hash_zero_sentinel (fun _ => some 1) sampleArgs
      ⟨0, 0, none, zeroPipelineDescription⟩ (fun _ => some 2)
      [(5, ⟨5, [1, 2, 3, 4], ShaderTranslationState.translated⟩),
       (0, ⟨0, [9, 9, 9, 9], ShaderTranslationState.translated⟩)]
      { vertex_shader_hash := 5, pixel_shader_hash := 0, regFields := [],
        render_targets := [] }
      (resolveStoredPipeline (fun _ => some 2)
        [(5, ⟨5, [1, 2, 3, 4], ShaderTranslationState.translated⟩),
         (0, ⟨0, [9, 9, 9, 9], ShaderTranslationState.translated⟩)]
        { vertex_shader_hash := 5, pixel_shader_hash := 0, regFields := [],
          render_targets := [] }).get!).2 rfl (by rfl)
    exact h

/-- Structural invariant of the pipeline table maintained by the facade:
every entry is keyed by the hash of its description, no two entries hold
byte-equal descriptions, and the single-slot fast path always points at
a table entry.  It holds for the empty cache and is preserved by every
configuration request. -/
def tableWF (Hd : PipelineDescription → Nat) (s : PipelineCacheState) : Prop :=
  (∀ p ∈ s.pipeline_states, p.1 = Hd p.2.runtime.description) ∧
  (∀ p ∈ s.pipeline_states, ∀ q ∈ s.pipeline_states,
    p.2.runtime.description = q.2.runtime.description → p = q) ∧
  (match s.current_pipeline_state with
   | some e => (Hd e.runtime.description, e) ∈ s.pipeline_states
   | none => True)

instance (Hd : PipelineDescription → Nat) (s : PipelineCacheState) :
    Decidable (tableWF Hd s) := by
  unfold tableWF
  cases s.current_pipeline_state <;> exact instDecidableAnd

theorem findPipelineState_some (Hd : PipelineDescription → Nat)
    (table : List (Nat × PipelineState)) (d : PipelineDescription) (e : PipelineState)
    (h : findPipelineState Hd table d = some e) :
    (Hd d, e) ∈ table ∧ e.runtime.description = d := by
  unfold findPipelineState at h
  cases hfind : (table.filter (fun p => p.1 == Hd d)).find?
      (fun p => p.2.runtime.description == d) with
  | none => rw [hfind] at h; exact absurd h (by simp)
  | some p =>
    rw [hfind] at h
    simp only [Option.map_some'] at h
    have hmem := List.mem_of_find?_eq_some hfind
    have hpred := List.find?_some hfind
    rw [List.mem_filter] at hmem
    have hkey : p.1 = Hd d := by simpa using hmem.2
    have hdesc : p.2.runtime.description = d := by simpa using hpred
    have hpe : p.2 = e := by simpa using h
    subst hpe
    refine ⟨?_, hdesc⟩
    have : p = (Hd d, p.2) := by
      cases p
      simp_all
    rw [← this]
    exact hmem.1

theorem findPipelineState_none (Hd : PipelineDescription → Nat)
    (table : List (Nat × PipelineState)) (d : PipelineDescription)
    (h : findPipelineState Hd table d = none) :
    ∀ p ∈ table, p.1 = Hd d → p.2.runtime.description ≠ d := by
  intro p hp hkey hdesc
  unfold findPipelineState at h
  rw [Option.map_eq_none', List.find?_eq_none] at h
  exact absurd (by simpa using hdesc)
    (h p (List.mem_filter.mpr ⟨hp, by simpa using hkey⟩))

theorem findPipelineState_of_mem (Hd : PipelineDescription → Nat)
    (s : PipelineCacheState) (d : PipelineDescription) (e : PipelineState)
    (hwf : tableWF Hd s)
    (hmem : (Hd d, e) ∈ s.pipeline_states) (hdesc : e.runtime.description = d) :
    findPipelineState Hd s.pipeline_states d = some e := by
  cases hfind : findPipelineState Hd s.pipeline_states d with
  | none => exact absurd hdesc (findPipelineState_none Hd _ d hfind (Hd d, e) hmem rfl)
  | some q =>
    obtain ⟨hqmem, hqdesc⟩ := findPipelineState_some Hd _ d q hfind
    have := hwf.2.1 (Hd d, q) hqmem (Hd d, e) hmem (by simp [hqdesc, hdesc])
    simp only [Prod.mk.injEq] at this
    rw [this.2]

/-- After a successful configuration request the returned entry carries
the built description, sits in the table under its hash, and occupies
the fast-path slot. -/
theorem ConfigurePipeline_success_post (Hd : PipelineDescription → Nat)
    (R : ConfigureArgs → Option Nat) (T : Nat → Bool) (s : PipelineCacheState)
    (args : ConfigureArgs) (runtime : PipelineRuntimeDescription) (e : PipelineState)
    (hwf : tableWF Hd s)
    (hg : GetCurrentStateDescription R args = some runtime)
    (he : (ConfigurePipeline Hd R T s args).1 = some e) :
    e.runtime.description = runtime.description ∧
      (ConfigurePipeline Hd R T s args).2.1.current_pipeline_state = some e ∧
      (Hd runtime.description, e) ∈
        (ConfigurePipeline Hd R T s args).2.1.pipeline_states := by
  unfold ConfigurePipeline at he ⊢
  rw [hg] at he ⊢
  dsimp only at he ⊢
  have hslow : ∀ (hse : (configurePipelineSlow Hd T s args runtime).1 = some e),
      e.runtime.description = runtime.description ∧
        (configurePipelineSlow Hd T s args runtime).2.1.current_pipeline_state = some e ∧
        (Hd runtime.description, e) ∈
          (configurePipelineSlow Hd T s args runtime).2.1.pipeline_states := by
    intro hse
    unfold configurePipelineSlow at hse ⊢
    dsimp only at hse ⊢
    cases hf : findPipelineState Hd s.pipeline_states runtime.description with
    | some q =>
      rw [hf] at hse
      dsimp only at hse ⊢
      obtain ⟨hqmem, hqdesc⟩ :=
        findPipelineState_some Hd s.pipeline_states runtime.description q hf
      have hqe : q = e := by simpa using hse
      subst hqe
      exact ⟨hqdesc, rfl, hqmem⟩
    | none =>
      rw [hf] at hse
      dsimp only at hse ⊢
      by_cases hens : (EnsureShadersTranslated T s.shader_storage_file.isSome
          s.shader_map args.vertexHash args.pixelHash).1
      · rw [if_pos hens] at hse ⊢
        have : (⟨s.next_id, runtime⟩ : PipelineState) = e := by simpa using hse
        subst this
        exact ⟨rfl, rfl, by simp⟩
      · rw [if_neg hens] at hse
        exact absurd hse (by simp)
  cases hc : s.current_pipeline_state with
  | none =>
    rw [hc] at he
    exact hslow (by simpa using he)
  | some cur =>
    rw [hc] at he
    dsimp only at he ⊢
    by_cases hfast : cur.runtime.description = runtime.description
    · rw [if_pos hfast] at he ⊢
      have hcur : cur = e := by simpa using he
      subst hcur
      have h3 := hwf.2.2
      rw [hc] at h3
      exact ⟨hfast, hc, by rw [← hfast]; exact h3⟩
    · rw [if_neg hfast] at he ⊢
      exact hslow he

/-- Every configuration request preserves the table invariant. -/
theorem ConfigurePipeline_preserves_tableWF (Hd : PipelineDescription → Nat)
    (R : ConfigureArgs → Option Nat) (T : Nat → Bool) (s : PipelineCacheState)
    (args : ConfigureArgs) (hwf : tableWF Hd s) :
    tableWF Hd (ConfigurePipeline Hd R T s args).2.1 := by
  unfold ConfigurePipeline
  cases hg : GetCurrentStateDescription R args with
  | none => exact hwf
  | some runtime =>
    dsimp only
    have hslow : tableWF Hd (configurePipelineSlow Hd T s args runtime).2.1 := by
      unfold configurePipelineSlow
      dsimp only
      cases hf : findPipelineState Hd s.pipeline_states runtime.description with
      | some q =>
        obtain ⟨hqmem, hqdesc⟩ :=
          findPipelineState_some Hd s.pipeline_states runtime.description q hf
        refine ⟨hwf.1, hwf.2.1, ?_⟩
        dsimp only
        rw [hqdesc]
        exact hqmem
      | none =>
        by_cases hens : (EnsureShadersTranslated T s.shader_storage_file.isSome
            s.shader_map args.vertexHash args.pixelHash).1
        · rw [if_pos hens]
          have hnomem := findPipelineState_none Hd s.pipeline_states
            runtime.description hf
          refine ⟨?_, ?_, ?_⟩
          · intro p hp
            rcases List.mem_cons.mp hp with hphead | hptail
            · rw [hphead]
            · exact hwf.1 p hptail
          · intro p hp q hq hdeq
            rcases List.mem_cons.mp hp with hphead | hptail <;>
              rcases List.mem_cons.mp hq with hqhead | hqtail
            · rw [hphead, hqhead]
            · exfalso
              rw [hphead] at hdeq
              exact hnomem q hqtail ((hwf.1 q hqtail).trans (by rw [← hdeq])) hdeq.symm
            · exfalso
              rw [hqhead] at hdeq
              exact hnomem p hptail ((hwf.1 p hptail).trans (by rw [hdeq])) hdeq
            · exact hwf.2.1 p hptail q hqtail hdeq
          · dsimp only
            exact List.mem_cons_self _ _
        · rw [if_neg hens]
          refine ⟨hwf.1, hwf.2.1, ?_⟩
          dsimp only
          exact hwf.2.2
    cases hc : s.current_pipeline_state with
    | none => exact hslow
    | some cur =>
      dsimp only
      by_cases hfast : cur.runtime.description = runtime.description
      · rw [if_pos hfast]
        have h3 := hwf.2.2
        rw [hc] at h3
        exact ⟨hwf.1, hwf.2.1, by rw [hc]; exact h3⟩
      · rw [if_neg hfast]
        exact hslow

/-- The pipeline table only grows: configuration requests never remove an
entry. -/
theorem ConfigurePipeline_table_monotone (Hd : PipelineDescription → Nat)
    (R : ConfigureArgs → Option Nat) (T : Nat → Bool) (s : PipelineCacheState)
    (args : ConfigureArgs) (p : Nat × PipelineState)
    (hp : p ∈ s.pipeline_states) :
    p ∈ (ConfigurePipeline Hd R T s args).2.1.pipeline_states := by
  unfold ConfigurePipeline
  cases hg : GetCurrentStateDescription R args with
  | none => exact hp
  | some runtime =>
    dsimp only
    have hslow : p ∈ (configurePipelineSlow Hd T s args runtime).2.1.pipeline_states := by
      unfold configurePipelineSlow
      dsimp only
      cases hf : findPipelineState Hd s.pipeline_states runtime.description with
      | some q => exact hp
      | none =>
        by_cases hens : (EnsureShadersTranslated T s.shader_storage_file.isSome
            s.shader_map args.vertexHash args.pixelHash).1
        · rw [if_pos hens]
          exact List.mem_cons_of_mem _ hp
        · rw [if_neg hens]
          exact hp
    cases hc : s.current_pipeline_state with
    | none => exact hslow
    | some cur =>
      dsimp only
      by_cases hfast : cur.runtime.description = runtime.description
      · rw [if_pos hfast]
        exact hp
      · rw [if_neg hfast]
        exact hslow

/-- A configuration request whose built description already has a table
entry returns exactly that entry — byte equality of the description
decides the result, whatever the hash function does. -/
theorem ConfigurePipeline_hit (Hd : PipelineDescription → Nat)
    (R : ConfigureArgs → Option Nat) (T : Nat → Bool) (s : PipelineCacheState)
    (args : ConfigureArgs) (runtime : PipelineRuntimeDescription) (e : PipelineState)
    (hwf : tableWF Hd s)
    (hg : GetCurrentStateDescription R args = some runtime)
    (hmem : (Hd runtime.description, e) ∈ s.pipeline_states)
    (hdesc : e.runtime.description = runtime.description) :
    (ConfigurePipeline Hd R T s args).1 = some e := by
  unfold ConfigurePipeline
  rw [hg]
  dsimp only
  have hfound := findPipelineState_of_mem Hd s runtime.description e hwf hmem hdesc
  have hslow : (configurePipelineSlow Hd T s args runtime).1 = some e := by
    unfold configurePipelineSlow
    dsimp only
    rw [hfound]
  cases hc : s.current_pipeline_state with
  | none => exact hslow
  | some cur =>
    dsimp only
    by_cases hfast : cur.runtime.description = runtime.description
    · rw [if_pos hfast]
      have h3 := hwf.2.2
      rw [hc] at h3
      have := hwf.2.1 (Hd cur.runtime.description, cur) h3
        (Hd runtime.description, e) hmem (by rw [hfast, hdesc])
      simp only [Prod.mk.injEq] at this
      rw [this.2]
    · rw [if_neg hfast]
      exact hslow

/-- Table membership and the invariant survive any sequence of further
configuration requests. -/
theorem configureSeq_preserves (Hd : PipelineDescription → Nat)
    (R : ConfigureArgs → Option Nat) (T : Nat → Bool) (l : List ConfigureArgs)
    (st : PipelineCacheState) (p : Nat × PipelineState)
    (h : tableWF Hd st ∧ p ∈ st.pipeline_states) :
    tableWF Hd (l.foldl (fun st a => (ConfigurePipeline Hd R T st a).2.1) st) ∧
      p ∈ (l.foldl (fun st a => (ConfigurePipeline Hd R T st a).2.1) st).pipeline_states := by
  induction l generalizing st with
  | nil => exact h
  | cons a tl ih =>
    exact ih _ ⟨ConfigurePipeline_preserves_tableWF Hd R T st a h.1,
      ConfigurePipeline_table_monotone Hd R T st a p h.2⟩

/-- C2: whenever two configuration requests build byte-for-byte equal
`PipelineDescription` values, `ConfigurePipeline` returns the same
`PipelineEntry` — even with arbitrarily many other requests in between —
and the entry returned carries exactly the requested description bytes.
The description hash `Hd` is universally quantified, so the result holds
even for a constant hash under which every lookup collides: candidate
selection by hash always falls back to full byte comparison.  For an
immediately repeated description the single-slot last-used fast path
returns the same entry with the state unchanged and no side effects. -/
theorem ConfigurePipeline_byte_equal_same_entry (Hd : PipelineDescription → Nat)
    (R : ConfigureArgs → Option Nat) (T : Nat → Bool) (s : PipelineCacheState)
    (args1 args2 : ConfigureArgs) (inter : List ConfigureArgs)
    (runtime1 runtime2 : PipelineRuntimeDescription) (e : PipelineState)
    (hwf : tableWF Hd s)
    (hg1 : GetCurrentStateDescription R args1 = some runtime1)
    (hg2 : GetCurrentStateDescription R args2 = some runtime2)
    (hdeq : runtime2.description = runtime1.description)
    (he : (ConfigurePipeline Hd R T s args1).1 = some e) :
    e.runtime.description = runtime1.description ∧
    (ConfigurePipeline Hd R T
        (inter.foldl (fun st a => (ConfigurePipeline Hd R T st a).2.1)
          (ConfigurePipeline Hd R T s args1).2.1) args2).1 = some e ∧
    ConfigurePipeline Hd R T (ConfigurePipeline Hd R T s args1).2.1 args2 =
      (some e, (ConfigurePipeline Hd R T s args1).2.1, []) := by
  obtain ⟨hedesc, hcur, hemem⟩ :=
    ConfigurePipeline_success_post Hd R T s args1 runtime1 e hwf hg1 he
  have hwf1 : tableWF Hd (ConfigurePipeline Hd R T s args1).2.1 :=
    ConfigurePipeline_preserves_tableWF Hd R T s args1 hwf
  refine ⟨hedesc, ?_, ?_⟩
  · have hpres := configureSeq_preserves Hd R T inter _ (Hd runtime1.description, e)
      ⟨hwf1, hemem⟩
    exact ConfigurePipeline_hit Hd R T _ args2 runtime2 e hpres.1 hg2
      (by rw [hdeq]; exact hpres.2) (hedesc.trans hdeq.symm)
  · set s1 := (ConfigurePipeline Hd R T s args1).2.1 with hs1
    unfold ConfigurePipeline
    rw [hg2]
    dsimp only
    rw [hcur]
    dsimp only
    rw [if_pos (hedesc.trans hdeq.symm)]

/-- Witness for `ConfigurePipeline_byte_equal_same_entry`: on the empty
cache a first request inserts entry 0 and an immediately repeated
identical request — with an empty interleaving — returns the same entry
through the fast path, with the state unchanged and no side effects. -/
theorem ConfigurePipeline_byte_equal_same_entry_witness :
    (⟨0, ⟨0, 5, none, ⟨5, 0, [], []⟩⟩⟩ : PipelineState).runtime.description =
      (⟨0, 5, none, ⟨5, 0, [], []⟩⟩ : PipelineRuntimeDescription).description ∧
    (ConfigurePipeline (fun _ => 0) (fun _ => some 0) (fun _ => true)
        (([] : List ConfigureArgs).foldl
          (fun st a =>
            (ConfigurePipeline (fun _ => 0) (fun _ => some 0) (fun _ => true) st a).2.1)
          (ConfigurePipeline (fun _ => 0) (fun _ => some 0) (fun _ => true)
            emptyCacheState sampleArgs).2.1)
        sampleArgs).1 = some ⟨0, ⟨0, 5, none, ⟨5, 0, [], []⟩⟩⟩ ∧
    ConfigurePipeline (fun _ => 0) (fun _ => some 0) (fun _ => true)
        (ConfigurePipeline (fun _ => 0) (fun _ => some 0) (fun _ => true)
          emptyCacheState sampleArgs).2.1 sampleArgs =
      (some ⟨0, ⟨0, 5, none, ⟨5, 0, [], []⟩⟩⟩,
        (ConfigurePipeline (fun _ => 0) (fun _ => some 0) (fun _ => true)
          emptyCacheState sampleArgs).2.1, []) :=
  ConfigurePipeline_byte_equal_same_entry (fun _ => 0) (fun _ => some 0) (fun _ => true)
    emptyCacheState sampleArgs sampleArgs [] ⟨0, 5, none, ⟨5, 0, [], []⟩⟩
    ⟨0, 5, none, ⟨5, 0, [], []⟩⟩ ⟨0, ⟨0, 5, none, ⟨5, 0, [], []⟩⟩⟩
    (by decide) (by decide) (by decide) rfl (by decide)

/-- C4 amended: whenever `ClearCache` runs while shutting down, or with
no active storage writer thread, then after it returns the creation
queue is empty, no creation worker is busy, every pipeline state object
and every shader object has been released with both maps cleared, and
the fast-path slot is dropped.  When a storage writer is active and the
cache is not shutting down, the old objects are likewise all released
and both maps cleared, but the trailing shader-storage reinitialization
replays the on-disk logs and may repopulate the maps before the call
returns (see the counterexample).  The two side conditions are the
by-construction pool invariants: with no creation threads nothing is
ever queued and no worker is ever busy. -/
theorem ClearCache_quiesces_and_clears (H : List Nat → Nat) (T : Nat → Bool)
    (descSize : Nat) (R2 : PipelineDescription → Option Nat)
    (decodeDesc : List Nat → PipelineDescription) (s : PipelineCacheState)
    (shutting_down : Bool)
    (hq : s.creation_threads = 0 → s.creation_queue = [])
    (hb : s.creation_threads = 0 → s.creation_threads_busy = 0)
    (hnr : shutting_down = true ∨ s.storage_write_thread = false) :
    (ClearCache H T descSize R2 decodeDesc s shutting_down).creation_queue = [] ∧
    (ClearCache H T descSize R2 decodeDesc s shutting_down).creation_threads_busy = 0 ∧
    (ClearCache H T descSize R2 decodeDesc s shutting_down).pipeline_states = [] ∧
    (ClearCache H T descSize R2 decodeDesc s shutting_down).shader_map = [] ∧
    (ClearCache H T descSize R2 decodeDesc s shutting_down).current_pipeline_state = none := by
  unfold ClearCache
  have hreinit : (!shutting_down && s.storage_write_thread) = false := by
    rcases hnr with h | h <;> simp [h]
  rw [hreinit]
  by_cases ht : s.creation_threads = 0
  · simp [ht, hq ht, hb ht]
  · simp [ht]

/-- Witness for `ClearCache_quiesces_and_clears`: clearing a populated
cache with threads, queued work, a busy worker and an active writer
during shutdown leaves queue empty, no busy worker, both maps empty and
no fast-path entry. -/
theorem ClearCache_quiesces_and_clears_witness :
    (ClearCache byteSumHash (fun _ => true) 4 (fun _ => some 0)
      (fun _ => zeroPipelineDescription)
      { shader_map := [(5, ⟨5, [1, 2, 3, 4], ShaderTranslationState.translated⟩)]
        pipeline_states := [(0, ⟨0, ⟨0, 5, none, ⟨5, 0, [], []⟩⟩⟩)]
        current_pipeline_state := some ⟨0, ⟨0, 5, none, ⟨5, 0, [], []⟩⟩⟩
        next_id := 1
        creation_queue := [0]
        creation_threads_busy := 1
        creation_threads := 2
        storage_write_thread := true
        shader_storage_file := some []
        pipeline_storage_file := some [] } true).creation_queue = [] ∧
    (ClearCache byteSumHash (fun _ => true) 4 (fun _ => some 0)
      (fun _ => zeroPipelineDescription)
      { shader_map := [(5, ⟨5, [1, 2, 3, 4], ShaderTranslationState.translated⟩)]
        pipeline_states := [(0, ⟨0, ⟨0, 5, none, ⟨5, 0, [], []⟩⟩⟩)]
        current_pipeline_state := some ⟨0, ⟨0, 5, none, ⟨5, 0, [], []⟩⟩⟩
        next_id := 1
        creation_queue := [0]
        creation_threads_busy := 1
        creation_threads := 2
        storage_write_thread := true
        shader_storage_file := some []
        pipeline_storage_file := some [] } true).creation_threads_busy = 0 ∧
    (ClearCache byteSumHash (fun _ => true) 4 (fun _ => some 0)
      (fun _ => zeroPipelineDescription)
      { shader_map := [(5, ⟨5, [1, 2, 3, 4], ShaderTranslationState.translated⟩)]
        pipeline_states := [(0, ⟨0, ⟨0, 5, none, ⟨5, 0, [], []⟩⟩⟩)]
        current_pipeline_state := some ⟨0, ⟨0, 5, none, ⟨5, 0, [], []⟩⟩⟩
        next_id := 1
        creation_queue := [0]
        creation_threads_busy := 1
        creation_threads := 2
        storage_write_thread := true
        shader_storage_file := some []
        pipeline_storage_file := some [] } true).pipeline_states = [] ∧
    (ClearCache byteSumHash (fun _ => true) 4 (fun _ => some 0)
      (fun _ => zeroPipelineDescription)
      { shader_map := [(5, ⟨5, [1, 2, 3, 4], ShaderTranslationState.translated⟩)]
        pipeline_states := [(0, ⟨0, ⟨0, 5, none, ⟨5, 0, [], []⟩⟩⟩)]
        current_pipeline_state := some ⟨0, ⟨0, 5, none, ⟨5, 0, [], []⟩⟩⟩
        next_id := 1
        creation_queue := [0]
        creation_threads_busy := 1
        creation_threads := 2
        storage_write_thread := true
        shader_storage_file := some []
        pipeline_storage_file := some [] } true).shader_map = [] ∧
    (ClearCache byteSumHash (fun _ => true) 4 (fun _ => some 0)
      (fun _ => zeroPipelineDescription)
      { shader_map := [(5, ⟨5, [1, 2, 3, 4], ShaderTranslationState.translated⟩)]
        pipeline_states := [(0, ⟨0, ⟨0, 5, none, ⟨5, 0, [], []⟩⟩⟩)]
        current_pipeline_state := some ⟨0, ⟨0, 5, none, ⟨5, 0, [], []⟩⟩⟩
        next_id := 1
        creation_queue := [0]
        creation_threads_busy := 1
        creation_threads := 2
        storage_write_thread := true
        shader_storage_file := some []
        pipeline_storage_file := some [] } true).current_pipeline_state = none :=
  ClearCache_quiesces_and_clears byteSumHash (fun _ => true) 4 (fun _ => some 0)
    (fun _ => zeroPipelineDescription) _ true (by decide) (by decide) (Or.inl rfl)

/-- C4 counterexample: `ClearCache(shutting_down = false)` with an
active storage writer and a shader log holding one valid record first
releases everything and clears both maps, but then reinitializes the
shader storage, which replays the log — after the call returns the
shader map again holds a shader object, so the claim that both maps are
cleared after every `ClearCache` return is false on the code. -/
theorem ClearCache_reinitialization_repopulates :
    (ClearCache byteSumHash (fun _ => true) 4 (fun _ => some 0)
        (fun _ => zeroPipelineDescription)
        { emptyCacheState with
          storage_write_thread := true
          shader_storage_file := some (encodeShaderRecord 7 sampleRecordA)
          pipeline_storage_file := some [] }
        false).shader_map ≠ [] := by
  decide

/-- C6: a theorem recording the divergence — the additional-thread loop
of the pipeline-log replay never raises the creation thread count above
`creation_thread_original_count` (for any stored-description count,
logical-processor count and original thread count the count after the
loop equals the original), although with 4 stored descriptions, 8
logical processors and 1 original thread the computed
`creation_thread_needed_count` is 3, so the pool was meant to grow. -/
theorem InitializeShaderStorage_no_creation_thread_overprovisioning :
    (∀ n p t, (InitializeShaderStorage_creationThreadGrowth n p t).2 = t) ∧
      (InitializeShaderStorage_creationThreadGrowth 4 8 1).1 = 3 ∧
      (InitializeShaderStorage_creationThreadGrowth 4 8 1).2 = 1 := by
  have hloop : ∀ t : Nat, addCreationThreadsWhileBelow t t = t := by
    intro t
    unfold addCreationThreadsWhileBelow
    simp
  refine ⟨fun n p t => ?_, ?_, ?_⟩
  · simp [InitializeShaderStorage_creationThreadGrowth, hloop]
  · rfl
  · simp [InitializeShaderStorage_creationThreadGrowth, hloop]

/-- C7 counterexample: under the shutdown-above-index operation a worker
whose index is at the threshold exits at its next scheduling decision
even though the creation queue still holds an entry — the claim that
such workers exit only after the queue drains is false on the code. -/
theorem CreationThread_step_exit_with_nonempty_queue :
    CreationThread_step 1 1 [42] = CreationThreadAction.exit ∧
      ([42] : List Nat) ≠ [] := by
  constructor
  · rfl
  · simp

/-- C7 amended: a worker whose index is at or above the shutdown
threshold exits at its next scheduling decision regardless of the queue
contents (callers drain the queue before designating a threshold), while
a worker below the threshold never exits — it dequeues the front entry
when the queue is non-empty and waits otherwise. -/
theorem CreationThread_step_shutdown_behaviour (i f : Nat) (q : List Nat) :
    (i ≥ f → CreationThread_step i f q = CreationThreadAction.exit) ∧
      (i < f → q ≠ [] → CreationThread_step i f q = CreationThreadAction.dequeue q.headI) ∧
      (i < f → q = [] → CreationThread_step i f q = CreationThreadAction.wait) := by
  refine ⟨fun h => ?_, fun h hq => ?_, fun h hq => ?_⟩
  · simp [CreationThread_step, h]
  · simp [CreationThread_step, hq, Nat.not_le.mpr h]
  · simp [CreationThread_step, hq, Nat.not_le.mpr h]

/-- Witness for `CreationThread_step_shutdown_behaviour` at concrete
inputs. -/
theorem CreationThread_step_shutdown_behaviour_witness :
    CreationThread_step 2 1 [7] = CreationThreadAction.exit ∧
      CreationThread_step 0 3 [7] = CreationThreadAction.dequeue 7 ∧
      CreationThread_step 0 3 [] = CreationThreadAction.wait :=
  ⟨(CreationThread_step_shutdown_behaviour 2 1 [7]).1 (by decide),
    (CreationThread_step_shutdown_behaviour 0 3 [7]).2.1 (by decide) (by decide),
    (CreationThread_step_shutdown_behaviour 0 3 []).2.2 (by decide) rfl⟩

end XeniaPipelineCache
